import Mathlib

/-!
Verification of the persistent record store of the Personal-Finance-Manager
repository (src/core/data_manager.py, src/data_manager.py,
src/core/transactions.py).

The development has two layers:

* a codec layer modelling the value encoding performed by `json.dump` /
  `json.load` on the in-memory records (Python dicts whose values are
  strings, booleans, ints, floats, `decimal.Decimal`, and nested
  lists/dicts);
* a filesystem layer modelling the live data files, temporary files and
  the timestamped backup directory, over which the save/load/backup/restore
  functions of `data_manager.py` are transcribed.

Machine-level details that the claims do not depend on (byte-level JSON
text, directory creation, OS error codes) are abstracted; every branch of
the transcribed functions follows the corresponding Python source line by
line, as noted in the doc comments.
-/

namespace FinanceStore

/-- Model of Python `decimal.Decimal`: a significand together with a
decimal exponent, the value being `m / 10 ^ e`.  Structural equality
distinguishes `12.50` from `12.5`, exactly as `Decimal`'s canonical text
representation does. -/
structure Dec where
  m : Int
  e : Nat
deriving DecidableEq, Repr

/-- Model of a Python IEEE-754 double carrying an exactly representable
value `m / 2 ^ k`.  Only exact doubles are modelled; conversions that would
round are mapped to `none` by `floatOfDecExact`. -/
structure PyFloat where
  m : Int
  k : Nat
deriving DecidableEq, Repr

/-- Model of Python `float(Decimal(...))` restricted to the exactly
representable domain: `m / 10^e` is an IEEE double precisely when
`5^e ∣ m` (so the value is the dyadic `(m / 5^e) / 2^e`), the reduced
significand fits in 53 bits and the exponent is in range.  Conversions
outside this domain round in Python and are not modelled (`none`). -/
def floatOfDecExact (d : Dec) : Option PyFloat :=
  if (5 : Int) ^ d.e ∣ d.m ∧ (d.m / (5 : Int) ^ d.e).natAbs < 2 ^ 53 ∧ d.e ≤ 1074 then
    some ⟨d.m / (5 : Int) ^ d.e, d.e⟩
  else none

mutual
/-- Values appearing in the program's in-memory records: the types that
`users` / `transactions` entries carry in the source (strings, booleans,
ints, floats, `Decimal`, nested lists and dicts). -/
inductive Value where
  | vStr (s : String)
  | vBool (b : Bool)
  | vInt (n : Int)
  | vDec (d : Dec)
  | vFloat (f : PyFloat)
  | vList (l : ValueList)
  | vObj (l : FieldList)

/-- List of values (payload of a Python list). -/
inductive ValueList where
  | nil
  | cons (v : Value) (t : ValueList)

/-- Ordered field list of a Python dict (insertion order is preserved by
both Python dicts and `json`). -/
inductive FieldList where
  | nil
  | cons (k : String) (v : Value) (t : FieldList)
end

mutual
/-- JSON document AST.  A number literal is kept as significand and
decimal exponent (`m / 10^e`); `e = 0` is an integer literal, `e > 0` a
literal with a fractional part. -/
inductive Json where
  | jNull
  | jBool (b : Bool)
  | jNum (m : Int) (e : Nat)
  | jStr (s : String)
  | jArr (l : JsonList)
  | jObj (l : JsonFields)

/-- List of JSON values. -/
inductive JsonList where
  | nil
  | cons (j : Json) (t : JsonList)

/-- Ordered key/value list of a JSON object. -/
inductive JsonFields where
  | nil
  | cons (k : String) (j : Json) (t : JsonFields)
end

/-- True when the JSON value is a string literal. -/
def Json.isStr : Json → Bool
  | .jStr _ => true
  | _ => false

/-- True when the JSON value is a number literal. -/
def Json.isNum : Json → Bool
  | .jNum _ _ => true
  | _ => false

/-- Field lookup in a JSON object payload. -/
def JsonFields.find : JsonFields → String → Option Json
  | .nil, _ => none
  | .cons k j t, key => if k = key then some j else t.find key

mutual
/-- Model of `json.dump` on a single value (src/core/data_manager.py uses
`json.dump(users, f, indent=2, ensure_ascii=False)`).  `json.dump` has no
handler for `decimal.Decimal`, so a `Decimal` raises `TypeError`: encoding
returns `none`.  A float is emitted as a number literal: the exact dyadic
`m / 2^k` equals `m·5^k / 10^k`.  Strings, booleans and ints map to their
native JSON forms; lists and dicts recurse. -/
def encodeValue : Value → Option Json
  | .vStr s => some (.jStr s)
  | .vBool b => some (.jBool b)
  | .vInt n => some (.jNum n 0)
  | .vDec _ => none
  | .vFloat f => some (.jNum (f.m * 5 ^ f.k) f.k)
  | .vList l => (encodeValueList l).map .jArr
  | .vObj l => (encodeFieldList l).map .jObj

/-- Elementwise `json.dump` encoding of a list. -/
def encodeValueList : ValueList → Option JsonList
  | .nil => some .nil
  | .cons v t =>
    match encodeValue v, encodeValueList t with
    | some j, some jt => some (.cons j jt)
    | _, _ => none

/-- Fieldwise `json.dump` encoding of a dict. -/
def encodeFieldList : FieldList → Option JsonFields
  | .nil => some .nil
  | .cons k v t =>
    match encodeValue v, encodeFieldList t with
    | some j, some jt => some (.cons k j jt)
    | _, _ => none
end

mutual
/-- Model of `json.load` on a single JSON value.  An integer literal
parses to a Python int, a fractional literal to a float (modelled only on
the exactly representable domain, see `floatOfDecExact`); strings stay
strings (the source performs no decimal sniffing), booleans stay booleans.
`null` does not occur in this program's data and is left unmodelled. -/
def decodeValue : Json → Option Value
  | .jNull => none
  | .jBool b => some (.vBool b)
  | .jNum m 0 => some (.vInt m)
  | .jNum m (e+1) => (floatOfDecExact ⟨m, e+1⟩).map .vFloat
  | .jStr s => some (.vStr s)
  | .jArr l => (decodeJsonList l).map .vList
  | .jObj l => (decodeJsonFields l).map .vObj

/-- Elementwise `json.load` decoding of an array. -/
def decodeJsonList : JsonList → Option ValueList
  | .nil => some .nil
  | .cons j t =>
    match decodeValue j, decodeJsonList t with
    | some v, some vt => some (.cons v vt)
    | _, _ => none

/-- Fieldwise `json.load` decoding of an object. -/
def decodeJsonFields : JsonFields → Option FieldList
  | .nil => some .nil
  | .cons k j t =>
    match decodeValue j, decodeJsonFields t with
    | some v, some vt => some (.cons k v vt)
    | _, _ => none
end

mutual
/-- True when a value uses only the JSON-native types handled by the
encoder without loss: strings, booleans, ints and nests thereof (neither
`Decimal`, which `json.dump` cannot serialize, nor floats). -/
def jsonNative : Value → Bool
  | .vStr _ => true
  | .vBool _ => true
  | .vInt _ => true
  | .vDec _ => false
  | .vFloat _ => false
  | .vList l => jsonNativeList l
  | .vObj l => jsonNativeFields l

/-- All members of the list are JSON-native. -/
def jsonNativeList : ValueList → Bool
  | .nil => true
  | .cons v t => jsonNative v && jsonNativeList t

/-- All fields of the dict are JSON-native. -/
def jsonNativeFields : FieldList → Bool
  | .nil => true
  | .cons _ v t => jsonNative v && jsonNativeFields t
end

mutual
/-- Round trip of `json.load` after `json.dump` on a JSON-native value. -/
def roundtripValue : ∀ v : Value, jsonNative v = true →
    (encodeValue v).bind decodeValue = some v
  | .vStr _, _ => by simp [encodeValue, decodeValue]
  | .vBool _, _ => by simp [encodeValue, decodeValue]
  | .vInt _, _ => by simp [encodeValue, decodeValue]
  | .vList l, h => by
    have hl := roundtripValueList l (by simpa [jsonNative] using h)
    cases he : encodeValueList l with
    | none => rw [he] at hl; simp at hl
    | some jl =>
      rw [he] at hl
      simp only [Option.some_bind] at hl
      simp only [encodeValue, he, Option.map_some', Option.some_bind, decodeValue, hl,
        Option.map_some']
  | .vObj l, h => by
    have hl := roundtripFieldList l (by simpa [jsonNative] using h)
    cases he : encodeFieldList l with
    | none => rw [he] at hl; simp at hl
    | some jl =>
      rw [he] at hl
      simp only [Option.some_bind] at hl
      simp only [encodeValue, he, Option.map_some', Option.some_bind, decodeValue, hl,
        Option.map_some']

/-- Round trip on a list of JSON-native values. -/
def roundtripValueList : ∀ l : ValueList, jsonNativeList l = true →
    (encodeValueList l).bind decodeJsonList = some l
  | .nil, _ => by simp [encodeValueList, decodeJsonList]
  | .cons v t, h => by
    have hv : jsonNative v = true := by
      have := h; simp [jsonNativeList, Bool.and_eq_true] at this; exact this.1
    have ht : jsonNativeList t = true := by
      have := h; simp [jsonNativeList, Bool.and_eq_true] at this; exact this.2
    have h1 := roundtripValue v hv
    have h2 := roundtripValueList t ht
    simp only [encodeValueList]
    cases he1 : encodeValue v with
    | none => rw [he1] at h1; simp at h1
    | some j =>
      cases he2 : encodeValueList t with
      | none => rw [he2] at h2; simp at h2
      | some jt =>
        rw [he1] at h1; rw [he2] at h2
        simp only [Option.some_bind] at h1 h2
        simp only [encodeValueList, he1, he2, Option.some_bind, decodeJsonList, h1, h2]

/-- Round trip on a JSON-native field list. -/
def roundtripFieldList : ∀ l : FieldList, jsonNativeFields l = true →
    (encodeFieldList l).bind decodeJsonFields = some l
  | .nil, _ => by simp [encodeFieldList, decodeJsonFields]
  | .cons k v t, h => by
    have hv : jsonNative v = true := by
      have := h; simp [jsonNativeFields, Bool.and_eq_true] at this; exact this.1
    have ht : jsonNativeFields t = true := by
      have := h; simp [jsonNativeFields, Bool.and_eq_true] at this; exact this.2
    have h1 := roundtripValue v hv
    have h2 := roundtripFieldList t ht
    simp only [encodeFieldList]
    cases he1 : encodeValue v with
    | none => rw [he1] at h1; simp at h1
    | some j =>
      cases he2 : encodeFieldList t with
      | none => rw [he2] at h2; simp at h2
      | some jt =>
        rw [he1] at h1; rw [he2] at h2
        simp only [Option.some_bind] at h1 h2
        simp only [encodeFieldList, he1, he2, Option.some_bind, decodeJsonFields, h1, h2]
end

/-- A record (one element of a collection) is an ordered field list, the
shape of the dicts stored in `users` / `transactions`. -/
abbrev Rec := FieldList

/-- Content of one on-disk file, abstracted from the byte level to exactly
the distinctions `load_data` / `load_users` make: a valid JSON array of
records, valid JSON of a different top-level type (raises `ValueError` in
the loaders), invalid JSON bytes (raises `json.JSONDecodeError`), or a
partially written file (also invalid JSON to a reader). -/
inductive Content where
  | recs (l : List Rec)
  | other
  | bad
  | halfWritten

/-- Filesystem paths.  The constants below are `DATA_DIR`-relative paths
exactly as built in src/core/data_manager.py lines 19-23. -/
abbrev Path := String

/-- The `USERS_FILE` constant, `os.path.join(DATA_DIR, "users.json")`. -/
def USERS_FILE : Path := "data/users.json"

/-- The `TXNS_FILE` constant, `os.path.join(DATA_DIR, "transactions.json")`. -/
def TXNS_FILE : Path := "data/transactions.json"

/-- The temporary file `f"{USERS_FILE}.tmp"` used by the atomic write. -/
def TMP_USERS : Path := "data/users.json.tmp"

/-- The temporary file `f"{TXNS_FILE}.tmp"` used by the atomic write. -/
def TMP_TXNS : Path := "data/transactions.json.tmp"

/-- The `_BACKUP_KEEP` retention constant (5) of src/core/data_manager.py. -/
def BACKUP_KEEP : Nat := 5

/-- Lookup of a path in an association-list directory. -/
def fsGet : List (Path × Content) → Path → Option Content
  | [], _ => none
  | (q, c) :: rest, p => if q = p then some c else fsGet rest p

/-- Write (create or overwrite) a path in a directory. -/
def fsSet : List (Path × Content) → Path → Content → List (Path × Content)
  | [], p, c => [(p, c)]
  | (q, x) :: rest, p, c => if q = p then (p, c) :: rest else (q, x) :: fsSet rest p c

/-- Remove a path from a directory (paths are unique on a real
filesystem, so removing every entry with the key is the faithful model). -/
def fsDel : List (Path × Content) → Path → List (Path × Content)
  | [], _ => []
  | (q, x) :: rest, p => if q = p then fsDel rest p else (q, x) :: fsDel rest p

/-- State of the data directory: the regular files (live data files and
`.tmp` files, plus the root variant's inline `.bak_` files), and the
backup directory of the core variant, kept per logical file as the
timestamp-ascending list that `sorted(glob.glob(f"{base}.bak_*"))`
produces (the `%Y%m%d_%H%M%S` timestamp format is fixed-width, so
lexicographic filename order is timestamp order; timestamps are modelled
as naturals). -/
structure DiskState where
  files : List (Path × Content)
  backups : List (Path × List (Nat × Content))

/-- Backup list of a logical file (empty when none exist). -/
def bGet : List (Path × List (Nat × Content)) → Path → List (Nat × Content)
  | [], _ => []
  | (q, l) :: rest, p => if q = p then l else bGet rest p

/-- Replace the backup list of a logical file. -/
def bSet : List (Path × List (Nat × Content)) → Path → List (Nat × Content) →
    List (Path × List (Nat × Content))
  | [], p, l => [(p, l)]
  | (q, x) :: rest, p, l => if q = p then (p, l) :: rest else (q, x) :: bSet rest p l

/-- Write a file. -/
def setFile (p : Path) (c : Content) (d : DiskState) : DiskState :=
  { d with files := fsSet d.files p c }

/-- Model of `os.replace(src, dst)`: an atomic rename.  The source always
exists at every call site modelled here; a missing source (which would
raise in Python) is mapped to a no-op. -/
def replaceFile (src dst : Path) (d : DiskState) : DiskState :=
  match fsGet d.files src with
  | none => d
  | some c => { d with files := fsSet (fsDel d.files src) dst c }

/-- Model of `ensure_data_files` for one path: if the file does not exist,
create it containing the empty JSON list (src/core/data_manager.py lines
31-37, src/data_manager.py lines 29-38). -/
def ensure_file (p : Path) (d : DiskState) : DiskState :=
  match fsGet d.files p with
  | some _ => d
  | none => setFile p (Content.recs []) d

/-- Model of `ensure_data_files()`: directory creation is a no-op in the
model; the two known data files are created empty when missing. -/
def ensure_data_files (d : DiskState) : DiskState :=
  ensure_file TXNS_FILE (ensure_file USERS_FILE d)

/-- Insertion of a freshly copied backup into the timestamp-sorted backup
list: `shutil.copy2` to `f"{base}.bak_{ts}"` creates the entry at its
timestamp position, overwriting an existing backup with the identical
second-resolution timestamp. -/
def insertBackup (ts : Nat) (c : Content) : List (Nat × Content) → List (Nat × Content)
  | [] => [(ts, c)]
  | (t, x) :: rest =>
    if ts < t then (ts, c) :: (t, x) :: rest
    else if ts = t then (ts, c) :: rest
    else (t, x) :: insertBackup ts c rest

/-- Model of `_rotate_backups` (src/core/data_manager.py lines 46-57):
repeatedly drop the oldest entry while more than `keep` remain. -/
def rotate_backups (keep : Nat) : List (Nat × Content) → List (Nat × Content)
  | [] => []
  | f :: rest => if keep < rest.length + 1 then rotate_backups keep rest else f :: rest

/-- Model of `_make_backup` (src/core/data_manager.py lines 60-72) with
explicit failure injection: if the source file does not exist, do nothing
(returns `None` in Python); if the copy raises `OSError` (`copyFail`),
the warning is printed and the save continues with no backup made; after
a successful copy, rotate — unless every deletion in the rotation loop
fails (`rotFail`), in which case the stale entries simply remain.  Either
failure is non-fatal to the caller. -/
def make_backup_f (p : Path) (ts keep : Nat) (copyFail rotFail : Bool) (d : DiskState) :
    DiskState :=
  if copyFail then d else
  match fsGet d.files p with
  | none => d
  | some c =>
    let inserted := insertBackup ts c (bGet d.backups p)
    let nb := if rotFail then inserted else rotate_backups keep inserted
    { d with backups := bSet d.backups p nb }

/-- The failure-free `_make_backup`. -/
def make_backup (p : Path) (ts keep : Nat) (d : DiskState) : DiskState :=
  make_backup_f p ts keep false false d

/-- Model of `_latest_backup_for` (lines 75-79): last entry of the
ascending list, i.e. the head of `sorted(glob.glob(pattern), reverse=True)`. -/
def latest_backup_for (p : Path) (d : DiskState) : Option (Nat × Content) :=
  (bGet d.backups p).getLast?

/-- Model of `restore_latest_backup` (lines 82-91): copy the newest backup
over the live path, reporting whether a backup existed. -/
def restore_latest_backup (p : Path) (d : DiskState) : Bool × DiskState :=
  match latest_backup_for p d with
  | none => (false, d)
  | some (_, c) => (true, setFile p c d)

/-- One attempted read of a data file, as performed inside the loaders:
`open` + `json.load` + the `isinstance(..., list)` check.  A missing file
raises `OSError`, invalid or half-written bytes raise
`json.JSONDecodeError`, a non-list top level raises `ValueError`; all
three are caught by the same `except` clause, so the model needs only
one error outcome. -/
def readList (p : Path) (d : DiskState) : Except Unit (List Rec) :=
  match fsGet d.files p with
  | some (Content.recs l) => Except.ok l
  | _ => Except.error ()

/-- The Store's generic `Load(logicalName)` of the specification,
transcribed from `load_users` (src/core/data_manager.py lines 178-201)
with the fixed path generalized.  The third component counts the
`"Warning:"`-labelled messages printed on the path taken: one at line 191
when the first read fails, and a second at line 200 when the function
falls through to returning the empty list. -/
def Load (p : Path) (d0 : DiskState) : List Rec × DiskState × Nat :=
  let d := ensure_data_files d0
  match readList p d with
  | Except.ok l => (l, d, 0)
  | Except.error _ =>
    match restore_latest_backup p d with
    | (true, d1) =>
      match readList p d1 with
      | Except.ok l => (l, d1, 1)
      | Except.error _ => ([], d1, 2)
    | (false, d1) => ([], d1, 2)

/-- Transcription of `load_users` (src/core/data_manager.py lines
178-201): read `USERS_FILE`; on failure print a warning, restore the
latest backup and retry once; if the retry also fails (or no backup
existed) print the second warning and return the empty list. -/
def load_users (d0 : DiskState) : List Rec × DiskState × Nat :=
  let d := ensure_data_files d0
  match readList USERS_FILE d with
  | Except.ok l => (l, d, 0)
  | Except.error _ =>
    match restore_latest_backup USERS_FILE d with
    | (true, d1) =>
      match readList USERS_FILE d1 with
      | Except.ok l => (l, d1, 1)
      | Except.error _ => ([], d1, 2)
    | (false, d1) => ([], d1, 2)

/-- Modelled from the spec: `load_transactions` is called by
src/core/transactions.py line 64 and imported by src/core/test_backup.py,
but its definition is not present under src/.  Per the specification's
§4.3, the typed accessors wrap the generic `Load` with the fixed logical
name and no additional logic. -/
def load_transactions (d0 : DiskState) : List Rec × DiskState × Nat :=
  Load TXNS_FILE d0

/-- Transcription of `load_data` (src/core/data_manager.py lines 94-137):
read both files; if either read fails, print one warning (line 113),
restore the latest backup of both files, and if at least one restore
happened retry both reads once, returning the empty pair when the retry
fails; with no backups at all, return the empty pair directly.  The
`"Restored data"` and `"Restore failed"` prints of lines 131/134 are not
`"Warning:"`-labelled and are not counted. -/
def load_data (d0 : DiskState) : (List Rec × List Rec) × DiskState × Nat :=
  let d := ensure_data_files d0
  match readList USERS_FILE d, readList TXNS_FILE d with
  | Except.ok us, Except.ok ts => ((us, ts), d, 0)
  | _, _ =>
    let r1 := restore_latest_backup USERS_FILE d
    let r2 := restore_latest_backup TXNS_FILE r1.2
    if r1.1 || r2.1 then
      match readList USERS_FILE r2.2, readList TXNS_FILE r2.2 with
      | Except.ok us, Except.ok ts => ((us, ts), r2.2, 1)
      | _, _ => (([], []), r2.2, 1)
    else (([], []), r2.2, 1)

/-- Failure injected into a single-file save. -/
inductive SFault where
  | ok
  | backupFail
  | rotateFail
  | writeFail
  | replaceFail
deriving DecidableEq

/-- The temporary path `f"{p}.tmp"`. -/
def tmpPath (p : Path) : Path := p ++ ".tmp"

/-- The Store's generic `Save(logicalName)` of the specification,
transcribed from `save_users` (src/core/data_manager.py lines 204-220)
with the fixed path and retention constant generalized: ensure files,
make a timestamped backup copy (failures non-fatal), write the new
content to the `.tmp` file and atomically rename it over the
destination.  If the write or the rename raises `OSError`, restore the
latest backup over the destination and propagate the failure
(`RuntimeError` in the source) — modelled as `Except.error` carrying the
disk state at the raise. -/
def Save (p : Path) (l : List Rec) (ts keep : Nat) (f : SFault) (d0 : DiskState) :
    Except DiskState DiskState :=
  let d1 := ensure_data_files d0
  let d2 := make_backup_f p ts keep (decide (f = SFault.backupFail))
    (decide (f = SFault.rotateFail)) d1
  if f = SFault.writeFail then
    Except.error (restore_latest_backup p (setFile (tmpPath p) Content.halfWritten d2)).2
  else
    let d3 := setFile (tmpPath p) (Content.recs l) d2
    if f = SFault.replaceFail then
      Except.error (restore_latest_backup p d3).2
    else
      Except.ok (replaceFile (tmpPath p) p d3)

/-- Transcription of `save_users` (src/core/data_manager.py lines
204-220): the single-file save on `USERS_FILE` with the
`_BACKUP_KEEP = 5` retention. -/
def save_users (l : List Rec) (ts : Nat) (f : SFault) (d0 : DiskState) :
    Except DiskState DiskState :=
  let d1 := ensure_data_files d0
  let d2 := make_backup_f USERS_FILE ts BACKUP_KEEP (decide (f = SFault.backupFail))
    (decide (f = SFault.rotateFail)) d1
  if f = SFault.writeFail then
    Except.error
      (restore_latest_backup USERS_FILE (setFile (tmpPath USERS_FILE) Content.halfWritten d2)).2
  else
    let d3 := setFile (tmpPath USERS_FILE) (Content.recs l) d2
    if f = SFault.replaceFail then
      Except.error (restore_latest_backup USERS_FILE d3).2
    else
      Except.ok (replaceFile (tmpPath USERS_FILE) USERS_FILE d3)

/-- Modelled from the spec: `save_transactions` is called by
src/core/transactions.py line 58 and imported by src/core/test_backup.py,
but its definition is not present under src/.  Per the specification's
§4.3 it wraps the generic `Save` with the fixed logical name and no
additional logic. -/
def save_transactions (l : List Rec) (ts : Nat) (f : SFault) (d0 : DiskState) :
    Except DiskState DiskState :=
  Save TXNS_FILE l ts BACKUP_KEEP f d0

/-- Failure injected into the two-file `save_data`. -/
inductive Fault where
  | ok
  | backupUsersFail
  | backupTxnsFail
  | rotateFail
  | writeUsersFail
  | replaceUsersFail
  | writeTxnsFail
  | replaceTxnsFail
deriving DecidableEq

/-- The `except OSError` clause of `save_data` (src/core/data_manager.py
lines 165-174): attempt to restore the latest backup of both files, then
re-raise as `RuntimeError`. -/
def save_fail_restore (d : DiskState) : Except DiskState DiskState :=
  Except.error (restore_latest_backup TXNS_FILE (restore_latest_backup USERS_FILE d).2).2

/-- Transcription of the core `save_data` (src/core/data_manager.py lines
140-174): ensure files, back up both files (copy + rotate, non-fatal),
then for each file write the `.tmp` file and atomically rename it over
the destination; any `OSError` in the write/rename phase triggers the
restore-and-raise clause. -/
def save_data (users txns : List Rec) (ts1 ts2 : Nat) (f : Fault) (d0 : DiskState) :
    Except DiskState DiskState :=
  let d1 := ensure_data_files d0
  let d2 := make_backup_f USERS_FILE ts1 BACKUP_KEEP (decide (f = Fault.backupUsersFail))
    (decide (f = Fault.rotateFail)) d1
  let d3 := make_backup_f TXNS_FILE ts2 BACKUP_KEEP (decide (f = Fault.backupTxnsFail))
    (decide (f = Fault.rotateFail)) d2
  if f = Fault.writeUsersFail then
    save_fail_restore (setFile TMP_USERS Content.halfWritten d3)
  else
    let d4 := setFile TMP_USERS (Content.recs users) d3
    if f = Fault.replaceUsersFail then save_fail_restore d4
    else
      let d5 := replaceFile TMP_USERS USERS_FILE d4
      if f = Fault.writeTxnsFail then
        save_fail_restore (setFile TMP_TXNS Content.halfWritten d5)
      else
        let d6 := setFile TMP_TXNS (Content.recs txns) d5
        if f = Fault.replaceTxnsFail then save_fail_restore d6
        else Except.ok (replaceFile TMP_TXNS TXNS_FILE d6)

/-- Apply a sequence of filesystem steps. -/
def runSteps (steps : List (DiskState → DiskState)) (d : DiskState) : DiskState :=
  steps.foldl (fun s f => f s) d

/-- All intermediate states of a step sequence, initial state included:
the disk states a concurrently scheduled reader could observe. -/
def statesOf (steps : List (DiskState → DiskState)) (d : DiskState) : List DiskState :=
  steps.scanl (fun s f => f s) d

/-- Small-step decomposition of the failure-free core `save_data`
(src/core/data_manager.py lines 140-164), one entry per filesystem
operation: ensure, backup users, backup transactions, write the users
tmp file (a reader passing between the two write steps sees it half
written), rename it over `USERS_FILE`, then the same for transactions. -/
def save_data_steps (users txns : List Rec) (ts1 ts2 : Nat) :
    List (DiskState → DiskState) :=
  [ ensure_data_files,
    make_backup USERS_FILE ts1 BACKUP_KEEP,
    make_backup TXNS_FILE ts2 BACKUP_KEEP,
    setFile TMP_USERS Content.halfWritten,
    setFile TMP_USERS (Content.recs users),
    replaceFile TMP_USERS USERS_FILE,
    setFile TMP_TXNS Content.halfWritten,
    setFile TMP_TXNS (Content.recs txns),
    replaceFile TMP_TXNS TXNS_FILE ]

/-- Backup path of the root-level variant, `f"{file_path}.bak_{ts}"`
(src/data_manager.py line 79): it lives next to the data file, not in a
backup directory. -/
def root_bak (p : Path) (ts : Nat) : Path := p ++ ".bak_" ++ toString ts

/-- Small-step decomposition of the root-level `save_data`
(src/data_manager.py lines 66-97).  Its backup step is
`os.replace(file_path, backup_path)` — a move, not a copy — so the live
file ceases to exist between the backup step and the later rename of the
tmp file over the destination. -/
def root_save_data_steps (users txns : List Rec) (ts : Nat) :
    List (DiskState → DiskState) :=
  [ ensure_data_files,
    replaceFile USERS_FILE (root_bak USERS_FILE ts),
    replaceFile TXNS_FILE (root_bak TXNS_FILE ts),
    setFile TMP_USERS Content.halfWritten,
    setFile TMP_USERS (Content.recs users),
    replaceFile TMP_USERS USERS_FILE,
    setFile TMP_TXNS Content.halfWritten,
    setFile TMP_TXNS (Content.recs txns),
    replaceFile TMP_TXNS TXNS_FILE ]

/-- Failure injected into the root-level two-file `save_data`
(src/data_manager.py).  It has no rotation; a failing backup move is
caught at lines 81-83 and the save continues. -/
inductive RFault where
  | ok
  | backupUsersFail
  | backupTxnsFail
  | writeUsersFail
  | replaceUsersFail
  | writeTxnsFail
  | replaceTxnsFail
deriving DecidableEq

/-- Transcription of the root-level `save_data` (src/data_manager.py
lines 66-100): ensure files, then for each existing file
`os.replace(file_path, backup_path)` — a move, with an `OSError` caught
as a warning and the save continuing — then for each file write the
`.tmp` file and atomically rename it over the destination.  Its
`except OSError` clause (lines 98-100) re-raises as `RuntimeError`
directly: unlike the core variant it attempts no restore, so the disk is
left exactly as it was at the point of failure (with the moved-away live
files still absent). -/
def root_save_data (users txns : List Rec) (ts : Nat) (f : RFault) (d0 : DiskState) :
    Except DiskState DiskState :=
  let d1 := ensure_data_files d0
  let d2 := if f = RFault.backupUsersFail then d1
    else replaceFile USERS_FILE (root_bak USERS_FILE ts) d1
  let d3 := if f = RFault.backupTxnsFail then d2
    else replaceFile TXNS_FILE (root_bak TXNS_FILE ts) d2
  if f = RFault.writeUsersFail then
    Except.error (setFile TMP_USERS Content.halfWritten d3)
  else
    let d4 := setFile TMP_USERS (Content.recs users) d3
    if f = RFault.replaceUsersFail then Except.error d4
    else
      let d5 := replaceFile TMP_USERS USERS_FILE d4
      if f = RFault.writeTxnsFail then
        Except.error (setFile TMP_TXNS Content.halfWritten d5)
      else
        let d6 := setFile TMP_TXNS (Content.recs txns) d5
        if f = RFault.replaceTxnsFail then Except.error d6
        else Except.ok (replaceFile TMP_TXNS TXNS_FILE d6)

/-- Zero-padding of `f"{n:03d}"`: at least three digits. -/
def pad3 (n : Nat) : String :=
  let s := toString n
  if s.length < 3 then String.mk (List.replicate (3 - s.length) '0') ++ s else s

/-- Model of `format_txn_id` (src/core/transactions.py line 24):
`f"TXN{n:03d}"`. -/
def format_txn_id (n : Nat) : String := "TXN" ++ pad3 n

/-- The transaction dict built by `add_transaction` (src/core/
transactions.py lines 129-138).  The amount is read as
`Decimal(input(...))` (line 113) and stored as `float(amount)`
(line 133); the float conversion is modelled on the exactly
representable domain (`floatOfDecExact`), the other fields are the
entered strings. -/
def add_transaction_record (nextId : Nat) (userId ttype : String) (amount : Dec)
    (category tdate descr payMethod : String) : Option Rec :=
  (floatOfDecExact amount).map fun f =>
    FieldList.cons "transaction_id" (Value.vStr (format_txn_id nextId))
    (FieldList.cons "user_id" (Value.vStr userId)
    (FieldList.cons "type" (Value.vStr ttype)
    (FieldList.cons "amount" (Value.vFloat f)
    (FieldList.cons "category" (Value.vStr category)
    (FieldList.cons "date" (Value.vStr tdate)
    (FieldList.cons "description" (Value.vStr descr)
    (FieldList.cons "payment_method" (Value.vStr payMethod) FieldList.nil)))))))

/-- Iterated successful `Save` calls on one logical file, used to state
the retention property: each element is the timestamp and the collection
written by one call. -/
def run_saves (p : Path) (keep : Nat) (saves : List (Nat × List Rec)) (d : DiskState) :
    DiskState :=
  saves.foldl
    (fun s tc =>
      match Save p tc.2 tc.1 keep SFault.ok s with
      | Except.ok s2 => s2
      | Except.error s2 => s2) d

/-- Sample user record. -/
def recU : Rec := FieldList.cons "user_id" (Value.vStr "U001") FieldList.nil

/-- Second sample user record. -/
def recU2 : Rec := FieldList.cons "user_id" (Value.vStr "U002") FieldList.nil

/-- Sample transaction record. -/
def recT : Rec := FieldList.cons "transaction_id" (Value.vStr "TXN001") FieldList.nil

/-- Disk with both live files valid and no backups. -/
def dLive : DiskState :=
  ⟨[(USERS_FILE, Content.recs [recU]), (TXNS_FILE, Content.recs [recT])], []⟩

/-- Disk with an invalid users file and no backups. -/
def dUsersBadNoBak : DiskState :=
  ⟨[(USERS_FILE, Content.bad), (TXNS_FILE, Content.recs [recT])], []⟩

/-- Disk with an invalid users file and one valid users backup. -/
def dUsersBadBak : DiskState :=
  ⟨[(USERS_FILE, Content.bad), (TXNS_FILE, Content.recs [recT])],
   [(USERS_FILE, [(1, Content.recs [recU])])]⟩

/-- Disk with an invalid users file whose only backup is itself invalid. -/
def dUsersBadBadBak : DiskState :=
  ⟨[(USERS_FILE, Content.bad), (TXNS_FILE, Content.recs [recT])],
   [(USERS_FILE, [(1, Content.bad)])]⟩

/-- Disk with a valid users file, an invalid transactions file, and valid
backups of both: the combined-restore scenario. -/
def dTxnsBadBothBak : DiskState :=
  ⟨[(USERS_FILE, Content.recs [recU]), (TXNS_FILE, Content.bad)],
   [(USERS_FILE, [(1, Content.recs [recU2])]), (TXNS_FILE, [(1, Content.recs [recT])])]⟩

/-- Disk with a valid users file, an invalid transactions file, a valid
users backup and no transactions backup. -/
def dTxnsBadUsersBak : DiskState :=
  ⟨[(USERS_FILE, Content.recs [recU]), (TXNS_FILE, Content.bad)],
   [(USERS_FILE, [(1, Content.recs [recU2])])]⟩

/-- The decimal `Decimal("100.00")`. -/
def decBalance : Dec := ⟨10000, 2⟩

/-- The decimal `Decimal("12.5")`, exactly representable as a double. -/
def dec12half : Dec := ⟨125, 1⟩

/-- A one-record collection with decimal, string, boolean and nested
fields, as quantified over by the round-trip property. -/
def cDecimal : Value :=
  Value.vList (ValueList.cons
    (Value.vObj (FieldList.cons "balance" (Value.vDec decBalance)
      (FieldList.cons "name" (Value.vStr "a")
      (FieldList.cons "flag" (Value.vBool true)
      (FieldList.cons "tags" (Value.vList (ValueList.cons (Value.vStr "x") ValueList.nil))
        FieldList.nil)))))
    ValueList.nil)

/-- A one-record collection with string, boolean, integer and nested
fields only. -/
def cNative : Value :=
  Value.vList (ValueList.cons
    (Value.vObj (FieldList.cons "name" (Value.vStr "a")
      (FieldList.cons "flag" (Value.vBool true)
      (FieldList.cons "count" (Value.vInt 3)
      (FieldList.cons "tags" (Value.vList (ValueList.cons (Value.vStr "x") ValueList.nil))
        FieldList.nil)))))
    ValueList.nil)

theorem fsGet_fsSet_self (fs : List (Path × Content)) (p : Path) (c : Content) :
    fsGet (fsSet fs p c) p = some c := by
  induction fs with
  | nil => simp [fsSet, fsGet]
  | cons hd t ih =>
    obtain ⟨q, x⟩ := hd
    by_cases hq : q = p
    · simp [fsSet, fsGet, hq]
    · simp [fsSet, fsGet, hq, ih]

theorem fsGet_fsSet_ne {q p : Path} (h : q ≠ p) (fs : List (Path × Content)) (c : Content) :
    fsGet (fsSet fs p c) q = fsGet fs q := by
  induction fs with
  | nil =>
    simp only [fsSet, fsGet]
    rw [if_neg (Ne.symm h)]
  | cons hd t ih =>
    obtain ⟨r, x⟩ := hd
    by_cases hr : r = p
    · subst hr
      simp only [fsSet, fsGet, if_pos rfl]
      rw [if_neg (Ne.symm h), if_neg (Ne.symm h)]
    · simp [fsSet, fsGet, hr, ih]

theorem fsGet_fsDel_self (fs : List (Path × Content)) (p : Path) :
    fsGet (fsDel fs p) p = none := by
  induction fs with
  | nil => simp [fsDel, fsGet]
  | cons hd t ih =>
    obtain ⟨q, x⟩ := hd
    by_cases hq : q = p
    · simp [fsDel, fsGet, hq, ih]
    · simp [fsDel, fsGet, hq, ih]

theorem fsGet_fsDel_ne {q p : Path} (h : q ≠ p) (fs : List (Path × Content)) :
    fsGet (fsDel fs p) q = fsGet fs q := by
  induction fs with
  | nil => simp [fsDel]
  | cons hd t ih =>
    obtain ⟨r, x⟩ := hd
    by_cases hr : r = p
    · subst hr
      simp [fsDel, fsGet, Ne.symm h, ih]
    · simp [fsDel, fsGet, hr, ih]

theorem bGet_bSet_self (b : List (Path × List (Nat × Content))) (p : Path)
    (l : List (Nat × Content)) : bGet (bSet b p l) p = l := by
  induction b with
  | nil => simp [bSet, bGet]
  | cons hd t ih =>
    obtain ⟨q, x⟩ := hd
    by_cases hq : q = p
    · simp [bSet, bGet, hq]
    · simp [bSet, bGet, hq, ih]

theorem bGet_bSet_ne {q p : Path} (h : q ≠ p) (b : List (Path × List (Nat × Content)))
    (l : List (Nat × Content)) : bGet (bSet b p l) q = bGet b q := by
  induction b with
  | nil =>
    simp only [bSet, bGet]
    rw [if_neg (Ne.symm h)]
  | cons hd t ih =>
    obtain ⟨r, x⟩ := hd
    by_cases hr : r = p
    · subst hr
      simp only [bSet, bGet, if_pos rfl]
      rw [if_neg (Ne.symm h), if_neg (Ne.symm h)]
    · simp [bSet, bGet, hr, ih]

theorem make_backup_f_files (p : Path) (ts keep : Nat) (cf rf : Bool) (d : DiskState) :
    (make_backup_f p ts keep cf rf d).files = d.files := by
  unfold make_backup_f
  split
  · rfl
  · split <;> rfl

theorem make_backup_files (p : Path) (ts keep : Nat) (d : DiskState) :
    (make_backup p ts keep d).files = d.files :=
  make_backup_f_files p ts keep false false d

theorem get_make_backup (p : Path) (ts keep : Nat) (q : Path) (d : DiskState) :
    fsGet (make_backup p ts keep d).files q = fsGet d.files q := by
  rw [make_backup_files]

theorem get_setFile_self (p : Path) (c : Content) (d : DiskState) :
    fsGet (setFile p c d).files p = some c :=
  fsGet_fsSet_self d.files p c

theorem get_setFile_ne {q p : Path} (h : q ≠ p) (c : Content) (d : DiskState) :
    fsGet (setFile p c d).files q = fsGet d.files q :=
  fsGet_fsSet_ne h d.files c

theorem setFile_backups (p : Path) (c : Content) (d : DiskState) :
    (setFile p c d).backups = d.backups := rfl

theorem replaceFile_backups (src dst : Path) (d : DiskState) :
    (replaceFile src dst d).backups = d.backups := by
  unfold replaceFile
  split <;> rfl

theorem get_replace_dst {src : Path} {d : DiskState} {c : Content}
    (h : fsGet d.files src = some c) (dst : Path) :
    fsGet (replaceFile src dst d).files dst = some c := by
  unfold replaceFile
  rw [h]
  exact fsGet_fsSet_self _ dst c

theorem get_replace_ne {q src dst : Path} (h1 : q ≠ src) (h2 : q ≠ dst) (d : DiskState) :
    fsGet (replaceFile src dst d).files q = fsGet d.files q := by
  unfold replaceFile
  cases hc : fsGet d.files src with
  | none => rfl
  | some c => simp [fsGet_fsSet_ne h2, fsGet_fsDel_ne h1]

theorem get_replace_src {src dst : Path} (h : src ≠ dst) (d : DiskState) :
    fsGet (replaceFile src dst d).files src = none := by
  unfold replaceFile
  cases hc : fsGet d.files src with
  | none => exact hc
  | some c => simp [fsGet_fsSet_ne h, fsGet_fsDel_self]

theorem ensure_file_of_present {p : Path} {d : DiskState} {c : Content}
    (h : fsGet d.files p = some c) : ensure_file p d = d := by
  unfold ensure_file
  rw [h]

theorem ensure_data_files_of_present {d : DiskState} {cu ct : Content}
    (hu : fsGet d.files USERS_FILE = some cu) (ht : fsGet d.files TXNS_FILE = some ct) :
    ensure_data_files d = d := by
  unfold ensure_data_files
  rw [ensure_file_of_present hu, ensure_file_of_present ht]

theorem restore_latest_none {p : Path} {d : DiskState}
    (h : bGet d.backups p = []) : restore_latest_backup p d = (false, d) := by
  simp [restore_latest_backup, latest_backup_for, h]

theorem restore_latest_some {p : Path} {d : DiskState} {t : Nat} {c : Content}
    (h : (bGet d.backups p).getLast? = some (t, c)) :
    restore_latest_backup p d = (true, setFile p c d) := by
  simp [restore_latest_backup, latest_backup_for, h]

theorem data_append (s t : String) : (s ++ t).data = s.data ++ t.data := rfl

theorem ne_of_data_get {s t : String} (i : Nat)
    (h : s.data.get? i ≠ t.data.get? i) : s ≠ t :=
  fun e => h (by rw [e])

theorem users_ne_root_bak_users (ts : Nat) : USERS_FILE ≠ root_bak USERS_FILE ts := by
  refine ne_of_data_get 15 ?_
  rw [show root_bak USERS_FILE ts = (USERS_FILE ++ ".bak_") ++ toString ts from rfl,
    data_append, List.get?_append (by decide)]
  decide

theorem users_ne_root_bak_txns (ts : Nat) : USERS_FILE ≠ root_bak TXNS_FILE ts := by
  refine ne_of_data_get 5 ?_
  rw [show root_bak TXNS_FILE ts = (TXNS_FILE ++ ".bak_") ++ toString ts from rfl,
    data_append, List.get?_append (by decide)]
  decide

theorem txns_ne_root_bak_users (ts : Nat) : TXNS_FILE ≠ root_bak USERS_FILE ts := by
  refine ne_of_data_get 5 ?_
  rw [show root_bak USERS_FILE ts = (USERS_FILE ++ ".bak_") ++ toString ts from rfl,
    data_append, List.get?_append (by decide)]
  decide

theorem txns_ne_root_bak_txns (ts : Nat) : TXNS_FILE ≠ root_bak TXNS_FILE ts := by
  refine ne_of_data_get 22 ?_
  rw [show root_bak TXNS_FILE ts = (TXNS_FILE ++ ".bak_") ++ toString ts from rfl,
    data_append, List.get?_append (by decide)]
  decide

/-- C1 (counterexample).  The claim asserts that a reader opening the
destination file at any point during every `Save` call observes either the
complete prior content or the complete new content.  In the root-level
`save_data` (src/data_manager.py lines 75-83) the backup step is
`os.replace(USERS_FILE, backup_path)` — a move — so immediately after it
the destination file does not exist: a reader observes neither the prior
nor the new content.  Concretely, starting from a disk whose live files
hold `[recU]` and `[recT]`, the state after the first two steps of
`root_save_data_steps` has no `USERS_FILE` at all. -/
theorem c1_counterexample :
    ¬ (∀ s ∈ statesOf (root_save_data_steps [recU2] [recT] 1) dLive,
        fsGet s.files USERS_FILE = some (Content.recs [recU]) ∨
        fsGet s.files USERS_FILE = some (Content.recs [recU2])) := by
  intro h
  have hmem : runSteps ((root_save_data_steps [recU2] [recT] 1).take 2) dLive ∈
      statesOf (root_save_data_steps [recU2] [recT] 1) dLive := by
    simp [root_save_data_steps, statesOf, runSteps, List.scanl, List.take]
  have hnone : fsGet (runSteps ((root_save_data_steps [recU2] [recT] 1).take 2) dLive).files
      USERS_FILE = none := by
    have h1 : runSteps ((root_save_data_steps [recU2] [recT] 1).take 2) dLive =
        replaceFile USERS_FILE (root_bak USERS_FILE 1) (ensure_data_files dLive) := rfl
    rw [h1, get_replace_src (users_ne_root_bak_users 1)]
  rcases h _ hmem with h2 | h2 <;> rw [hnone] at h2 <;> cases h2

/-- C1 (amended).  In the core `save_data` (src/core/data_manager.py lines
140-164) a reader observes, at every intermediate point of the call,
either the complete prior content or the complete new content of each
destination file — never a truncated or half-written one.  In the
root-level `save_data` (src/data_manager.py lines 66-97) the same holds
except that during the move-based backup window the destination may also
be absent entirely; it is still never truncated or half-written. -/
theorem c1_atomic_visibility (d0 : DiskState) (u0 t0 users txns : List Rec)
    (ts1 ts2 ts : Nat)
    (hu : fsGet d0.files USERS_FILE = some (Content.recs u0))
    (ht : fsGet d0.files TXNS_FILE = some (Content.recs t0)) :
    (∀ s ∈ statesOf (save_data_steps users txns ts1 ts2) d0,
      (fsGet s.files USERS_FILE = some (Content.recs u0) ∨
       fsGet s.files USERS_FILE = some (Content.recs users)) ∧
      (fsGet s.files TXNS_FILE = some (Content.recs t0) ∨
       fsGet s.files TXNS_FILE = some (Content.recs txns))) ∧
    (∀ s ∈ statesOf (root_save_data_steps users txns ts) d0,
      (fsGet s.files USERS_FILE = some (Content.recs u0) ∨
       fsGet s.files USERS_FILE = some (Content.recs users) ∨
       fsGet s.files USERS_FILE = none) ∧
      (fsGet s.files TXNS_FILE = some (Content.recs t0) ∨
       fsGet s.files TXNS_FILE = some (Content.recs txns) ∨
       fsGet s.files TXNS_FILE = none)) := by
  have nUT : USERS_FILE ≠ TMP_USERS := by decide
  have nUX : USERS_FILE ≠ TMP_TXNS := by decide
  have nTT : TXNS_FILE ≠ TMP_USERS := by decide
  have nTX : TXNS_FILE ≠ TMP_TXNS := by decide
  have nUTx : USERS_FILE ≠ TXNS_FILE := by decide
  have nTU : TXNS_FILE ≠ USERS_FILE := by decide
  have hE : ensure_data_files d0 = d0 := ensure_data_files_of_present hu ht
  constructor
  · intro s hs
    simp only [statesOf, save_data_steps, List.scanl, List.mem_cons, List.not_mem_nil,
      or_false] at hs
    rw [hE] at hs
    set m1 := make_backup USERS_FILE ts1 BACKUP_KEEP d0 with hm1
    set m2 := make_backup TXNS_FILE ts2 BACKUP_KEEP m1 with hm2
    have hu2 : fsGet m2.files USERS_FILE = some (Content.recs u0) := by
      rw [hm2, get_make_backup, hm1, get_make_backup]; exact hu
    have ht2 : fsGet m2.files TXNS_FILE = some (Content.recs t0) := by
      rw [hm2, get_make_backup, hm1, get_make_backup]; exact ht
    set w1 := setFile TMP_USERS Content.halfWritten m2 with hw1
    set w2 := setFile TMP_USERS (Content.recs users) w1 with hw2
    have hu3 : fsGet w2.files USERS_FILE = some (Content.recs u0) := by
      rw [hw2, get_setFile_ne nUT, hw1, get_setFile_ne nUT]; exact hu2
    have ht3 : fsGet w2.files TXNS_FILE = some (Content.recs t0) := by
      rw [hw2, get_setFile_ne nTT, hw1, get_setFile_ne nTT]; exact ht2
    have htmp : fsGet w2.files TMP_USERS = some (Content.recs users) :=
      get_setFile_self _ _ _
    set r1 := replaceFile TMP_USERS USERS_FILE w2 with hr1
    have hu4 : fsGet r1.files USERS_FILE = some (Content.recs users) :=
      get_replace_dst htmp USERS_FILE
    have ht4 : fsGet r1.files TXNS_FILE = some (Content.recs t0) := by
      rw [hr1, get_replace_ne nTT nTU]; exact ht3
    set w3 := setFile TMP_TXNS Content.halfWritten r1 with hw3
    set w4 := setFile TMP_TXNS (Content.recs txns) w3 with hw4
    have hu5 : fsGet w4.files USERS_FILE = some (Content.recs users) := by
      rw [hw4, get_setFile_ne nUX, hw3, get_setFile_ne nUX]; exact hu4
    have ht5 : fsGet w4.files TXNS_FILE = some (Content.recs t0) := by
      rw [hw4, get_setFile_ne nTX, hw3, get_setFile_ne nTX]; exact ht4
    have htmp2 : fsGet w4.files TMP_TXNS = some (Content.recs txns) :=
      get_setFile_self _ _ _
    set r2 := replaceFile TMP_TXNS TXNS_FILE w4 with hr2
    have hu6 : fsGet r2.files USERS_FILE = some (Content.recs users) := by
      rw [hr2, get_replace_ne nUX nUTx]; exact hu5
    have ht6 : fsGet r2.files TXNS_FILE = some (Content.recs txns) :=
      get_replace_dst htmp2 TXNS_FILE
    have hu1 : fsGet m1.files USERS_FILE = some (Content.recs u0) := by
      rw [hm1, get_make_backup]; exact hu
    have ht1 : fsGet m1.files TXNS_FILE = some (Content.recs t0) := by
      rw [hm1, get_make_backup]; exact ht
    have huw1 : fsGet w1.files USERS_FILE = some (Content.recs u0) := by
      rw [hw1, get_setFile_ne nUT]; exact hu2
    have htw1 : fsGet w1.files TXNS_FILE = some (Content.recs t0) := by
      rw [hw1, get_setFile_ne nTT]; exact ht2
    have huw3 : fsGet w3.files USERS_FILE = some (Content.recs users) := by
      rw [hw3, get_setFile_ne nUX]; exact hu4
    have htw3 : fsGet w3.files TXNS_FILE = some (Content.recs t0) := by
      rw [hw3, get_setFile_ne nTX]; exact ht4
    rcases hs with rfl | rfl | rfl | rfl | rfl | rfl | rfl | rfl | rfl | rfl
    · exact ⟨Or.inl hu, Or.inl ht⟩
    · exact ⟨Or.inl hu, Or.inl ht⟩
    · exact ⟨Or.inl hu1, Or.inl ht1⟩
    · exact ⟨Or.inl hu2, Or.inl ht2⟩
    · exact ⟨Or.inl huw1, Or.inl htw1⟩
    · exact ⟨Or.inl hu3, Or.inl ht3⟩
    · exact ⟨Or.inr hu4, Or.inl ht4⟩
    · exact ⟨Or.inr huw3, Or.inl htw3⟩
    · exact ⟨Or.inr hu5, Or.inl ht5⟩
    · exact ⟨Or.inr hu6, Or.inr ht6⟩
  · intro s hs
    simp only [statesOf, root_save_data_steps, List.scanl, List.mem_cons, List.not_mem_nil,
      or_false] at hs
    rw [hE] at hs
    have nUbu : USERS_FILE ≠ root_bak USERS_FILE ts := users_ne_root_bak_users ts
    have nUbt : USERS_FILE ≠ root_bak TXNS_FILE ts := users_ne_root_bak_txns ts
    have nTbu : TXNS_FILE ≠ root_bak USERS_FILE ts := txns_ne_root_bak_users ts
    have nTbt : TXNS_FILE ≠ root_bak TXNS_FILE ts := txns_ne_root_bak_txns ts
    set m1 := replaceFile USERS_FILE (root_bak USERS_FILE ts) d0 with hm1
    have hu1 : fsGet m1.files USERS_FILE = none := get_replace_src nUbu d0
    have ht1 : fsGet m1.files TXNS_FILE = some (Content.recs t0) := by
      rw [hm1, get_replace_ne nTU nTbu]; exact ht
    set m2 := replaceFile TXNS_FILE (root_bak TXNS_FILE ts) m1 with hm2
    have hu2 : fsGet m2.files USERS_FILE = none := by
      rw [hm2, get_replace_ne nUTx nUbt]; exact hu1
    have ht2 : fsGet m2.files TXNS_FILE = none := get_replace_src nTbt m1
    set w1 := setFile TMP_USERS Content.halfWritten m2 with hw1
    set w2 := setFile TMP_USERS (Content.recs users) w1 with hw2
    have hu3 : fsGet w2.files USERS_FILE = none := by
      rw [hw2, get_setFile_ne nUT, hw1, get_setFile_ne nUT]; exact hu2
    have ht3 : fsGet w2.files TXNS_FILE = none := by
      rw [hw2, get_setFile_ne nTT, hw1, get_setFile_ne nTT]; exact ht2
    have huw1 : fsGet w1.files USERS_FILE = none := by
      rw [hw1, get_setFile_ne nUT]; exact hu2
    have htw1 : fsGet w1.files TXNS_FILE = none := by
      rw [hw1, get_setFile_ne nTT]; exact ht2
    have htmp : fsGet w2.files TMP_USERS = some (Content.recs users) :=
      get_setFile_self _ _ _
    set r1 := replaceFile TMP_USERS USERS_FILE w2 with hr1
    have hu4 : fsGet r1.files USERS_FILE = some (Content.recs users) :=
      get_replace_dst htmp USERS_FILE
    have ht4 : fsGet r1.files TXNS_FILE = none := by
      rw [hr1, get_replace_ne nTT nTU]; exact ht3
    set w3 := setFile TMP_TXNS Content.halfWritten r1 with hw3
    set w4 := setFile TMP_TXNS (Content.recs txns) w3 with hw4
    have hu5 : fsGet w4.files USERS_FILE = some (Content.recs users) := by
      rw [hw4, get_setFile_ne nUX, hw3, get_setFile_ne nUX]; exact hu4
    have ht5 : fsGet w4.files TXNS_FILE = none := by
      rw [hw4, get_setFile_ne nTX, hw3, get_setFile_ne nTX]; exact ht4
    have huw3 : fsGet w3.files USERS_FILE = some (Content.recs users) := by
      rw [hw3, get_setFile_ne nUX]; exact hu4
    have htw3 : fsGet w3.files TXNS_FILE = none := by
      rw [hw3, get_setFile_ne nTX]; exact ht4
    have htmp2 : fsGet w4.files TMP_TXNS = some (Content.recs txns) :=
      get_setFile_self _ _ _
    set r2 := replaceFile TMP_TXNS TXNS_FILE w4 with hr2
    have hu6 : fsGet r2.files USERS_FILE = some (Content.recs users) := by
      rw [hr2, get_replace_ne nUX nUTx]; exact hu5
    have ht6 : fsGet r2.files TXNS_FILE = some (Content.recs txns) :=
      get_replace_dst htmp2 TXNS_FILE
    rcases hs with rfl | rfl | rfl | rfl | rfl | rfl | rfl | rfl | rfl | rfl
    · exact ⟨Or.inl hu, Or.inl ht⟩
    · exact ⟨Or.inl hu, Or.inl ht⟩
    · exact ⟨Or.inr (Or.inr hu1), Or.inl ht1⟩
    · exact ⟨Or.inr (Or.inr hu2), Or.inr (Or.inr ht2)⟩
    · exact ⟨Or.inr (Or.inr huw1), Or.inr (Or.inr htw1)⟩
    · exact ⟨Or.inr (Or.inr hu3), Or.inr (Or.inr ht3)⟩
    · exact ⟨Or.inr (Or.inl hu4), Or.inr (Or.inr ht4)⟩
    · exact ⟨Or.inr (Or.inl huw3), Or.inr (Or.inr htw3)⟩
    · exact ⟨Or.inr (Or.inl hu5), Or.inr (Or.inr ht5)⟩
    · exact ⟨Or.inr (Or.inl hu6), Or.inr (Or.inl ht6)⟩

/-- C1 (witness).  The amended invariant instantiated on a concrete disk. -/
theorem c1_witness :
    fsGet dLive.files USERS_FILE = some (Content.recs [recU]) ∧
    fsGet dLive.files TXNS_FILE = some (Content.recs [recT]) ∧
    ((fsGet (make_backup USERS_FILE 1 BACKUP_KEEP dLive).files USERS_FILE =
        some (Content.recs [recU]) ∨
      fsGet (make_backup USERS_FILE 1 BACKUP_KEEP dLive).files USERS_FILE =
        some (Content.recs [recU2])) ∧
     (fsGet (make_backup USERS_FILE 1 BACKUP_KEEP dLive).files TXNS_FILE =
        some (Content.recs [recT]) ∨
      fsGet (make_backup USERS_FILE 1 BACKUP_KEEP dLive).files TXNS_FILE =
        some (Content.recs []))) := by
  refine ⟨rfl, rfl, ?_⟩
  have h := (c1_atomic_visibility dLive [recU] [recT] [recU2] [] 1 2 3 rfl rfl).1
  refine h (make_backup USERS_FILE 1 BACKUP_KEEP (ensure_data_files dLive)) ?_
  simp [statesOf, save_data_steps, List.scanl]

/-- C5 (counterexample).  The claim asserts that after the backup step of
every `Save`, the source (live) file still exists.  The root-level
`save_data` (src/data_manager.py lines 75-83) backs up with
`os.replace(file_path, backup_path)` — a move: starting from a disk whose
`USERS_FILE` holds `[recU]`, after the backup phase of the call (the first
two steps of `root_save_data_steps`) the live `USERS_FILE` no longer
exists. -/
theorem c5_counterexample :
    ¬ ∃ c, fsGet (runSteps ((root_save_data_steps [recU2] [recT] 1).take 2) dLive).files
        USERS_FILE = some c := by
  intro he
  obtain ⟨c, hc⟩ := he
  have h1 : runSteps ((root_save_data_steps [recU2] [recT] 1).take 2) dLive =
      replaceFile USERS_FILE (root_bak USERS_FILE 1) (ensure_data_files dLive) := rfl
  rw [h1, get_replace_src (users_ne_root_bak_users 1)] at hc
  cases hc

/-- C5 (amended).  The core `_make_backup` (src/core/data_manager.py lines
60-72) copies and never moves: it leaves every live file byte-for-byte in
place (it does not touch `.files` at all), so the source remains readable
after the backup is taken.  The root-level `save_data` backup step, by
contrast, moves the live file to the backup path: afterwards the backup
path holds the old content and the live file is gone. -/
theorem c5_backup_copies (p : Path) (ts keep : Nat) (d : DiskState) (c : Content)
    (h : fsGet d.files p = some c)
    (ts0 : Nat) (d2 : DiskState) (c2 : Content)
    (h2 : fsGet d2.files USERS_FILE = some c2) :
    (make_backup p ts keep d).files = d.files ∧
    fsGet (make_backup p ts keep d).files p = some c ∧
    fsGet (replaceFile USERS_FILE (root_bak USERS_FILE ts0) d2).files USERS_FILE = none ∧
    fsGet (replaceFile USERS_FILE (root_bak USERS_FILE ts0) d2).files
      (root_bak USERS_FILE ts0) = some c2 := by
  refine ⟨make_backup_files p ts keep d, ?_, ?_, ?_⟩
  · rw [get_make_backup]; exact h
  · exact get_replace_src (users_ne_root_bak_users ts0) d2
  · exact get_replace_dst h2 _

/-- C5 (witness).  The amended statement instantiated on a concrete disk. -/
theorem c5_witness :
    fsGet dLive.files USERS_FILE = some (Content.recs [recU]) ∧
    ((make_backup USERS_FILE 1 BACKUP_KEEP dLive).files = dLive.files ∧
     fsGet (make_backup USERS_FILE 1 BACKUP_KEEP dLive).files USERS_FILE =
       some (Content.recs [recU]) ∧
     fsGet (replaceFile USERS_FILE (root_bak USERS_FILE 2) dLive).files USERS_FILE = none ∧
     fsGet (replaceFile USERS_FILE (root_bak USERS_FILE 2) dLive).files
       (root_bak USERS_FILE 2) = some (Content.recs [recU])) :=
  ⟨rfl, c5_backup_copies USERS_FILE 1 BACKUP_KEEP dLive (Content.recs [recU]) rfl
    2 dLive (Content.recs [recU]) rfl⟩

/-- C7 (counterexample).  The claim asserts that with an invalid live file
and zero backups, `Load` emits exactly one warning-level event.
`load_users` (src/core/data_manager.py lines 178-201) prints two
`"Warning:"`-labelled messages on that path: the line-191 warning when the
first read fails, and the line-200 warning before returning the empty
list.  On the concrete disk `dUsersBadNoBak` it returns the empty
collection with two warnings, not one. -/
theorem c7_counterexample :
    (load_users dUsersBadNoBak).1 = [] ∧ (load_users dUsersBadNoBak).2.2 = 2 ∧
    (load_users dUsersBadNoBak).2.2 ≠ 1 :=
  ⟨rfl, rfl, by decide⟩

/-- C7 (amended).  Both loaders are total (every failure branch of the
source is caught and returns a value, never an exception), and with an
invalid live users file and zero backups each returns an empty Collection;
`load_data` (lines 94-137) emits exactly one warning-level event on that
path, while `load_users` (lines 178-201) emits two. -/
theorem c7_load_degrades
    (dA : DiskState) (tA : List Rec)
    (huA : fsGet dA.files USERS_FILE = some Content.bad)
    (htA : fsGet dA.files TXNS_FILE = some (Content.recs tA))
    (hbuA : bGet dA.backups USERS_FILE = [])
    (hbtA : bGet dA.backups TXNS_FILE = [])
    (dB : DiskState) (tB : List Rec)
    (huB : fsGet dB.files USERS_FILE = some Content.bad)
    (htB : fsGet dB.files TXNS_FILE = some (Content.recs tB))
    (hbuB : bGet dB.backups USERS_FILE = []) :
    load_data dA = (([], []), dA, 1) ∧ load_users dB = ([], dB, 2) := by
  constructor
  · have hE : ensure_data_files dA = dA := ensure_data_files_of_present huA htA
    have h1 : readList USERS_FILE dA = Except.error () := by simp [readList, huA]
    have h2 : readList TXNS_FILE dA = Except.ok tA := by simp [readList, htA]
    have h3 := restore_latest_none (p := USERS_FILE) (d := dA) hbuA
    have h4 := restore_latest_none (p := TXNS_FILE) (d := dA) hbtA
    simp [load_data, hE, h1, h2, h3, h4]
  · have hE : ensure_data_files dB = dB := ensure_data_files_of_present huB htB
    have h1 : readList USERS_FILE dB = Except.error () := by simp [readList, huB]
    have h3 := restore_latest_none (p := USERS_FILE) (d := dB) hbuB
    simp [load_users, hE, h1, h3]

/-- C7 (witness).  Both scenarios instantiated on the concrete disk with
an invalid users file and no backups. -/
theorem c7_witness :
    fsGet dUsersBadNoBak.files USERS_FILE = some Content.bad ∧
    bGet dUsersBadNoBak.backups USERS_FILE = [] ∧
    load_data dUsersBadNoBak = (([], []), dUsersBadNoBak, 1) ∧
    load_users dUsersBadNoBak = ([], dUsersBadNoBak, 2) := by
  refine ⟨rfl, rfl, ?_, ?_⟩
  · exact (c7_load_degrades dUsersBadNoBak [recT] rfl rfl rfl rfl
      dUsersBadNoBak [recT] rfl rfl rfl).1
  · exact (c7_load_degrades dUsersBadNoBak [recT] rfl rfl rfl rfl
      dUsersBadNoBak [recT] rfl rfl rfl).2

/-- C8.  With an invalid live users file and at least one backup,
`load_users` (src/core/data_manager.py lines 190-201) restores the latest
backup, retries the decode exactly once, and returns the backup's content
rather than an empty Collection (with only the single line-191 warning);
when the restored backup itself fails to decode, there is no further
retry: the loader returns the empty Collection. -/
theorem c8_recovery
    (d0 : DiskState) (ct : Content) (ub : List Rec) (ts : Nat)
    (hu : fsGet d0.files USERS_FILE = some Content.bad)
    (ht : fsGet d0.files TXNS_FILE = some ct)
    (hb : (bGet d0.backups USERS_FILE).getLast? = some (ts, Content.recs ub))
    (d1 : DiskState) (ct1 : Content) (ts1 : Nat)
    (hu1 : fsGet d1.files USERS_FILE = some Content.bad)
    (ht1 : fsGet d1.files TXNS_FILE = some ct1)
    (hb1 : (bGet d1.backups USERS_FILE).getLast? = some (ts1, Content.bad)) :
    load_users d0 = (ub, setFile USERS_FILE (Content.recs ub) d0, 1) ∧
    load_users d1 = ([], setFile USERS_FILE Content.bad d1, 2) := by
  constructor
  · have hE : ensure_data_files d0 = d0 := ensure_data_files_of_present hu ht
    have h1 : readList USERS_FILE d0 = Except.error () := by simp [readList, hu]
    have h2 := restore_latest_some (p := USERS_FILE) (d := d0) hb
    have h3 : readList USERS_FILE (setFile USERS_FILE (Content.recs ub) d0) =
        Except.ok ub := by simp [readList, get_setFile_self]
    simp [load_users, hE, h1, h2, h3]
  · have hE : ensure_data_files d1 = d1 := ensure_data_files_of_present hu1 ht1
    have h1 : readList USERS_FILE d1 = Except.error () := by simp [readList, hu1]
    have h2 := restore_latest_some (p := USERS_FILE) (d := d1) hb1
    have h3 : readList USERS_FILE (setFile USERS_FILE Content.bad d1) =
        Except.error () := by simp [readList, get_setFile_self]
    simp [load_users, hE, h1, h2, h3]

/-- C8 (witness).  Both scenarios instantiated on concrete disks: one with
a valid backup `[recU]`, one whose only backup is itself invalid. -/
theorem c8_witness :
    fsGet dUsersBadBak.files USERS_FILE = some Content.bad ∧
    (bGet dUsersBadBak.backups USERS_FILE).getLast? = some (1, Content.recs [recU]) ∧
    load_users dUsersBadBak =
      ([recU], setFile USERS_FILE (Content.recs [recU]) dUsersBadBak, 1) ∧
    load_users dUsersBadBadBak =
      ([], setFile USERS_FILE Content.bad dUsersBadBadBak, 2) := by
  refine ⟨rfl, rfl, ?_, ?_⟩
  · exact (c8_recovery dUsersBadBak (Content.recs [recT]) [recU] 1 rfl rfl rfl
      dUsersBadBadBak (Content.recs [recT]) 1 rfl rfl rfl).1
  · exact (c8_recovery dUsersBadBak (Content.recs [recT]) [recU] 1 rfl rfl rfl
      dUsersBadBadBak (Content.recs [recT]) 1 rfl rfl rfl).2

/-- C10.  When the combined `load_data` (src/core/data_manager.py lines
112-137) fails to decode `transactions.json`, its recovery restores the
latest backup over BOTH files: a valid live `users.json` is overwritten
with its older backup solely because the transactions file was corrupt
(first scenario: the result carries the users backup `ubA`, not the valid
live `uA`, and the final disk has `USERS_FILE` set to the backup).  And
when the retried decode still fails (second scenario: no transactions
backup exists, so the transactions file stays corrupt), both collections
come back empty even though the live users file was valid. -/
theorem c10_combined_restore
    (dA : DiskState) (uA ubA tbA : List Rec) (tsu tst : Nat)
    (huA : fsGet dA.files USERS_FILE = some (Content.recs uA))
    (htA : fsGet dA.files TXNS_FILE = some Content.bad)
    (hbuA : (bGet dA.backups USERS_FILE).getLast? = some (tsu, Content.recs ubA))
    (hbtA : (bGet dA.backups TXNS_FILE).getLast? = some (tst, Content.recs tbA))
    (dB : DiskState) (uB ubB : List Rec) (tsb : Nat)
    (huB : fsGet dB.files USERS_FILE = some (Content.recs uB))
    (htB : fsGet dB.files TXNS_FILE = some Content.bad)
    (hbuB : (bGet dB.backups USERS_FILE).getLast? = some (tsb, Content.recs ubB))
    (hbtB : bGet dB.backups TXNS_FILE = []) :
    load_data dA = ((ubA, tbA),
      setFile TXNS_FILE (Content.recs tbA) (setFile USERS_FILE (Content.recs ubA) dA), 1) ∧
    load_data dB = (([], []), setFile USERS_FILE (Content.recs ubB) dB, 1) := by
  constructor
  · have hE : ensure_data_files dA = dA := ensure_data_files_of_present huA htA
    have h1 : readList USERS_FILE dA = Except.ok uA := by simp [readList, huA]
    have h2 : readList TXNS_FILE dA = Except.error () := by simp [readList, htA]
    have h3 := restore_latest_some (p := USERS_FILE) (d := dA) hbuA
    have hbks : (setFile USERS_FILE (Content.recs ubA) dA).backups = dA.backups := rfl
    have h4 : restore_latest_backup TXNS_FILE (setFile USERS_FILE (Content.recs ubA) dA) =
        (true, setFile TXNS_FILE (Content.recs tbA)
          (setFile USERS_FILE (Content.recs ubA) dA)) := by
      refine restore_latest_some (t := tst) ?_
      rw [hbks]; exact hbtA
    have nUT : USERS_FILE ≠ TXNS_FILE := by decide
    have h5 : readList USERS_FILE (setFile TXNS_FILE (Content.recs tbA)
        (setFile USERS_FILE (Content.recs ubA) dA)) = Except.ok ubA := by
      simp [readList, get_setFile_ne nUT, get_setFile_self]
    have h6 : readList TXNS_FILE (setFile TXNS_FILE (Content.recs tbA)
        (setFile USERS_FILE (Content.recs ubA) dA)) = Except.ok tbA := by
      simp [readList, get_setFile_self]
    simp [load_data, hE, h1, h2, h3, h4, h5, h6]
  · have hE : ensure_data_files dB = dB := ensure_data_files_of_present huB htB
    have h1 : readList USERS_FILE dB = Except.ok uB := by simp [readList, huB]
    have h2 : readList TXNS_FILE dB = Except.error () := by simp [readList, htB]
    have h3 := restore_latest_some (p := USERS_FILE) (d := dB) hbuB
    have hbks : (setFile USERS_FILE (Content.recs ubB) dB).backups = dB.backups := rfl
    have h4 : restore_latest_backup TXNS_FILE (setFile USERS_FILE (Content.recs ubB) dB) =
        (false, setFile USERS_FILE (Content.recs ubB) dB) := by
      refine restore_latest_none ?_
      rw [hbks]; exact hbtB
    have nTU : TXNS_FILE ≠ USERS_FILE := by decide
    have h6 : readList TXNS_FILE (setFile USERS_FILE (Content.recs ubB) dB) =
        Except.error () := by
      simp [readList, get_setFile_ne nTU, htB]
    simp [load_data, hE, h1, h2, h3, h4, h6]

/-- C10 (witness).  Both scenarios instantiated on concrete disks: in the
first the valid live users collection `[recU]` is replaced by its older
backup `[recU2]` because only `transactions.json` was corrupt; in the
second both collections come back empty. -/
theorem c10_witness :
    fsGet dTxnsBadBothBak.files USERS_FILE = some (Content.recs [recU]) ∧
    load_data dTxnsBadBothBak = (([recU2], [recT]),
      setFile TXNS_FILE (Content.recs [recT])
        (setFile USERS_FILE (Content.recs [recU2]) dTxnsBadBothBak), 1) ∧
    load_data dTxnsBadUsersBak =
      (([], []), setFile USERS_FILE (Content.recs [recU2]) dTxnsBadUsersBak, 1) := by
  refine ⟨rfl, ?_, ?_⟩
  · exact (c10_combined_restore dTxnsBadBothBak [recU] [recU2] [recT] 1 1 rfl rfl rfl rfl
      dTxnsBadUsersBak [recU] [recU2] 1 rfl rfl rfl rfl).1
  · exact (c10_combined_restore dTxnsBadBothBak [recU] [recU2] [recT] 1 1 rfl rfl rfl rfl
      dTxnsBadUsersBak [recU] [recU2] 1 rfl rfl rfl rfl).2

theorem insertBackup_append {ts : Nat} {c : Content} :
    ∀ {l : List (Nat × Content)}, (∀ e ∈ l, e.1 < ts) →
      insertBackup ts c l = l ++ [(ts, c)]
  | [], _ => rfl
  | (t, x) :: rest, h => by
    have ht : t < ts := h (t, x) (by simp)
    have hrest : ∀ e ∈ rest, e.1 < ts := fun e he => h e (by simp [he])
    simp only [insertBackup, if_neg (by omega : ¬ ts < t), if_neg (by omega : ¬ ts = t)]
    rw [insertBackup_append hrest]
    rfl

theorem rotate_getLast {keep : Nat} (hk : 1 ≤ keep) :
    ∀ (l : List (Nat × Content)) (x : Nat × Content),
      (rotate_backups keep (l ++ [x])).getLast? = some x
  | [], x => by
    simp only [List.nil_append, rotate_backups]
    rw [if_neg (by simp; omega : ¬ keep < List.length [] + 1)]
    rfl
  | y :: rest, x => by
    simp only [List.cons_append, rotate_backups]
    split
    · exact rotate_getLast hk rest x
    · show ((y :: rest) ++ [x]).getLast? = some x
      exact List.getLast?_concat _

theorem make_backup_f_backups_ne {q p : Path} (h : q ≠ p) (ts keep : Nat) (cf rf : Bool)
    (d : DiskState) :
    bGet (make_backup_f p ts keep cf rf d).backups q = bGet d.backups q := by
  unfold make_backup_f
  split
  · rfl
  · split
    · rfl
    · exact bGet_bSet_ne h _ _

theorem latest_after_make_backup {p : Path} {ts keep : Nat} {d : DiskState} {c : Content}
    (hk : 1 ≤ keep) (hc : fsGet d.files p = some c)
    (hts : ∀ e ∈ bGet d.backups p, e.1 < ts) :
    (bGet (make_backup_f p ts keep false false d).backups p).getLast? = some (ts, c) := by
  simp only [make_backup_f, Bool.false_eq_true, if_false, hc]
  rw [bGet_bSet_self, insertBackup_append hts, rotate_getLast hk]

theorem save_ok_files (users txns : List Rec) (dBK : DiskState) :
    fsGet (replaceFile TMP_TXNS TXNS_FILE (setFile TMP_TXNS (Content.recs txns)
      (replaceFile TMP_USERS USERS_FILE
        (setFile TMP_USERS (Content.recs users) dBK)))).files USERS_FILE =
      some (Content.recs users) ∧
    fsGet (replaceFile TMP_TXNS TXNS_FILE (setFile TMP_TXNS (Content.recs txns)
      (replaceFile TMP_USERS USERS_FILE
        (setFile TMP_USERS (Content.recs users) dBK)))).files TXNS_FILE =
      some (Content.recs txns) := by
  have nUX : USERS_FILE ≠ TMP_TXNS := by decide
  have nUTx : USERS_FILE ≠ TXNS_FILE := by decide
  constructor
  · rw [get_replace_ne nUX nUTx, get_setFile_ne nUX]
    exact get_replace_dst (get_setFile_self _ _ _) _
  · exact get_replace_dst (get_setFile_self _ _ _) _

theorem save_restore_state {u0 t0 : List Rec} {ts1 ts2 : Nat} (dF : DiskState)
    (hbu : (bGet dF.backups USERS_FILE).getLast? = some (ts1, Content.recs u0))
    (hbt : (bGet dF.backups TXNS_FILE).getLast? = some (ts2, Content.recs t0)) :
    ∃ dr, save_fail_restore dF = Except.error dr ∧
      fsGet dr.files USERS_FILE = some (Content.recs u0) ∧
      fsGet dr.files TXNS_FILE = some (Content.recs t0) := by
  have nUTx : USERS_FILE ≠ TXNS_FILE := by decide
  have r1 : restore_latest_backup USERS_FILE dF =
      (true, setFile USERS_FILE (Content.recs u0) dF) := restore_latest_some hbu
  have hb2 : (setFile USERS_FILE (Content.recs u0) dF).backups = dF.backups := rfl
  have r2 : restore_latest_backup TXNS_FILE (setFile USERS_FILE (Content.recs u0) dF) =
      (true, setFile TXNS_FILE (Content.recs t0)
        (setFile USERS_FILE (Content.recs u0) dF)) :=
    restore_latest_some (by rw [hb2]; exact hbt)
  refine ⟨setFile TXNS_FILE (Content.recs t0) (setFile USERS_FILE (Content.recs u0) dF),
    ?_, ?_, ?_⟩
  · simp only [save_fail_restore, r1, r2]
  · rw [get_setFile_ne nUTx, get_setFile_self]
  · rw [get_setFile_self]

/-- C6 (counterexample).  The claim asserts that every `Save` whose
temporary-write-and-rename step fails attempts `RestoreLatest` to put the
destination back in its last-known-good state.  The root-level
`save_data`'s `except OSError` clause (src/data_manager.py lines 98-100)
re-raises without attempting any restore, and its backup step had moved
the live files away: concretely, when the users write fails on a disk
whose live files held `[recU]` and `[recT]`, the call errors with the
destination `USERS_FILE` missing — not its last-known-good content. -/
theorem c6_counterexample :
    root_save_data [recU2] [recT] 1 RFault.writeUsersFail dLive =
      Except.error (setFile TMP_USERS Content.halfWritten
        (replaceFile TXNS_FILE (root_bak TXNS_FILE 1)
          (replaceFile USERS_FILE (root_bak USERS_FILE 1) (ensure_data_files dLive)))) ∧
    fsGet (setFile TMP_USERS Content.halfWritten
      (replaceFile TXNS_FILE (root_bak TXNS_FILE 1)
        (replaceFile USERS_FILE (root_bak USERS_FILE 1)
          (ensure_data_files dLive)))).files USERS_FILE = none ∧
    ¬ fsGet (setFile TMP_USERS Content.halfWritten
      (replaceFile TXNS_FILE (root_bak TXNS_FILE 1)
        (replaceFile USERS_FILE (root_bak USERS_FILE 1)
          (ensure_data_files dLive)))).files USERS_FILE = some (Content.recs [recU]) := by
  have nUT : USERS_FILE ≠ TMP_USERS := by decide
  have nUTx : USERS_FILE ≠ TXNS_FILE := by decide
  have hB : fsGet (setFile TMP_USERS Content.halfWritten
      (replaceFile TXNS_FILE (root_bak TXNS_FILE 1)
        (replaceFile USERS_FILE (root_bak USERS_FILE 1)
          (ensure_data_files dLive)))).files USERS_FILE = none := by
    rw [get_setFile_ne nUT, get_replace_ne nUTx (users_ne_root_bak_txns 1),
      get_replace_src (users_ne_root_bak_users 1)]
  refine ⟨rfl, hB, ?_⟩
  intro h
  rw [hB] at h
  cases h

/-- C6 (amended).  When the temporary-write-and-rename phase of the core
`save_data` (src/core/data_manager.py lines 165-174) fails, the store
restores the latest backup of both files — leaving each destination with
its pre-save content — and propagates the failure to the caller as an
exception (`RuntimeError`); the failure is never silently swallowed, and
failures of the backup copy or of the rotation are best-effort: the save
still completes and the new contents reach the destinations.  The
root-level `save_data` (src/data_manager.py lines 98-100) also propagates
every write-phase failure as an exception and also treats backup failures
as non-fatal, but it attempts no restore: a failure of the first write
leaves both moved-away destinations missing. -/
theorem c6_save_failure (d0 : DiskState) (u0 t0 users txns : List Rec) (ts1 ts2 ts : Nat)
    (hu : fsGet d0.files USERS_FILE = some (Content.recs u0))
    (ht : fsGet d0.files TXNS_FILE = some (Content.recs t0))
    (hbu : ∀ e ∈ bGet d0.backups USERS_FILE, e.1 < ts1)
    (hbt : ∀ e ∈ bGet d0.backups TXNS_FILE, e.1 < ts2) :
    (∀ f, (f = Fault.writeUsersFail ∨ f = Fault.replaceUsersFail ∨
           f = Fault.writeTxnsFail ∨ f = Fault.replaceTxnsFail) →
       ∃ dr, save_data users txns ts1 ts2 f d0 = Except.error dr ∧
         fsGet dr.files USERS_FILE = some (Content.recs u0) ∧
         fsGet dr.files TXNS_FILE = some (Content.recs t0)) ∧
    (∀ f, (f = Fault.ok ∨ f = Fault.backupUsersFail ∨ f = Fault.backupTxnsFail ∨
           f = Fault.rotateFail) →
       ∃ dk, save_data users txns ts1 ts2 f d0 = Except.ok dk ∧
         fsGet dk.files USERS_FILE = some (Content.recs users) ∧
         fsGet dk.files TXNS_FILE = some (Content.recs txns)) ∧
    (∀ g, (g = RFault.writeUsersFail ∨ g = RFault.replaceUsersFail ∨
           g = RFault.writeTxnsFail ∨ g = RFault.replaceTxnsFail) →
       ∃ dr, root_save_data users txns ts g d0 = Except.error dr) ∧
    (∃ dr, root_save_data users txns ts RFault.writeUsersFail d0 = Except.error dr ∧
       fsGet dr.files USERS_FILE = none ∧ fsGet dr.files TXNS_FILE = none) ∧
    (∀ g, (g = RFault.ok ∨ g = RFault.backupUsersFail ∨ g = RFault.backupTxnsFail) →
       ∃ dk, root_save_data users txns ts g d0 = Except.ok dk ∧
         fsGet dk.files USERS_FILE = some (Content.recs users) ∧
         fsGet dk.files TXNS_FILE = some (Content.recs txns)) := by
  have hk : 1 ≤ BACKUP_KEEP := by decide
  have nUTx : USERS_FILE ≠ TXNS_FILE := by decide
  have nTU : TXNS_FILE ≠ USERS_FILE := by decide
  have nUT : USERS_FILE ≠ TMP_USERS := by decide
  have nTT : TXNS_FILE ≠ TMP_USERS := by decide
  have hE : ensure_data_files d0 = d0 := ensure_data_files_of_present hu ht
  set d2 := make_backup_f USERS_FILE ts1 BACKUP_KEEP false false (ensure_data_files d0)
    with hd2
  set d3 := make_backup_f TXNS_FILE ts2 BACKUP_KEEP false false d2 with hd3
  have hf2 : d2.files = d0.files := by
    rw [hd2, make_backup_f_files, hE]
  have hbu3 : (bGet d3.backups USERS_FILE).getLast? = some (ts1, Content.recs u0) := by
    rw [hd3, make_backup_f_backups_ne nUTx, hd2, hE]
    exact latest_after_make_backup hk hu hbu
  have hbt3 : (bGet d3.backups TXNS_FILE).getLast? = some (ts2, Content.recs t0) := by
    rw [hd3]
    refine latest_after_make_backup hk ?_ ?_
    · rw [hf2]; exact ht
    · rw [hd2, make_backup_f_backups_ne nTU, hE]; exact hbt
  refine ⟨?_, ?_, ?_, ?_, ?_⟩
  · intro f hf
    rcases hf with rfl | rfl | rfl | rfl
    · have e1 : save_data users txns ts1 ts2 Fault.writeUsersFail d0 =
          save_fail_restore (setFile TMP_USERS Content.halfWritten d3) := by
        rw [hd3, hd2]
        rfl
      rw [e1]
      have eb : (setFile TMP_USERS Content.halfWritten d3).backups = d3.backups := rfl
      exact save_restore_state _ (by rw [eb]; exact hbu3) (by rw [eb]; exact hbt3)
    · have e1 : save_data users txns ts1 ts2 Fault.replaceUsersFail d0 =
          save_fail_restore (setFile TMP_USERS (Content.recs users) d3) := by
        rw [hd3, hd2]
        rfl
      rw [e1]
      have eb : (setFile TMP_USERS (Content.recs users) d3).backups = d3.backups := rfl
      exact save_restore_state _ (by rw [eb]; exact hbu3) (by rw [eb]; exact hbt3)
    · have e1 : save_data users txns ts1 ts2 Fault.writeTxnsFail d0 =
          save_fail_restore (setFile TMP_TXNS Content.halfWritten
            (replaceFile TMP_USERS USERS_FILE
              (setFile TMP_USERS (Content.recs users) d3))) := by
        rw [hd3, hd2]
        rfl
      rw [e1]
      have eb : (setFile TMP_TXNS Content.halfWritten
          (replaceFile TMP_USERS USERS_FILE
            (setFile TMP_USERS (Content.recs users) d3))).backups = d3.backups := by
        rw [setFile_backups, replaceFile_backups, setFile_backups]
      exact save_restore_state _ (by rw [eb]; exact hbu3) (by rw [eb]; exact hbt3)
    · have e1 : save_data users txns ts1 ts2 Fault.replaceTxnsFail d0 =
          save_fail_restore (setFile TMP_TXNS (Content.recs txns)
            (replaceFile TMP_USERS USERS_FILE
              (setFile TMP_USERS (Content.recs users) d3))) := by
        rw [hd3, hd2]
        rfl
      rw [e1]
      have eb : (setFile TMP_TXNS (Content.recs txns)
          (replaceFile TMP_USERS USERS_FILE
            (setFile TMP_USERS (Content.recs users) d3))).backups = d3.backups := by
        rw [setFile_backups, replaceFile_backups, setFile_backups]
      exact save_restore_state _ (by rw [eb]; exact hbu3) (by rw [eb]; exact hbt3)
  · intro f hf
    rcases hf with rfl | rfl | rfl | rfl
    · refine ⟨_, rfl, ?_, ?_⟩
      · exact (save_ok_files users txns _).1
      · exact (save_ok_files users txns _).2
    · refine ⟨_, rfl, ?_, ?_⟩
      · exact (save_ok_files users txns _).1
      · exact (save_ok_files users txns _).2
    · refine ⟨_, rfl, ?_, ?_⟩
      · exact (save_ok_files users txns _).1
      · exact (save_ok_files users txns _).2
    · refine ⟨_, rfl, ?_, ?_⟩
      · exact (save_ok_files users txns _).1
      · exact (save_ok_files users txns _).2
  · intro g hg
    rcases hg with rfl | rfl | rfl | rfl
    · exact ⟨_, rfl⟩
    · exact ⟨_, rfl⟩
    · exact ⟨_, rfl⟩
    · exact ⟨_, rfl⟩
  · refine ⟨setFile TMP_USERS Content.halfWritten
      (replaceFile TXNS_FILE (root_bak TXNS_FILE ts)
        (replaceFile USERS_FILE (root_bak USERS_FILE ts) (ensure_data_files d0))),
      rfl, ?_, ?_⟩
    · rw [get_setFile_ne nUT, get_replace_ne nUTx (users_ne_root_bak_txns ts),
        get_replace_src (users_ne_root_bak_users ts)]
    · rw [get_setFile_ne nTT, get_replace_src (txns_ne_root_bak_txns ts)]
  · intro g hg
    rcases hg with rfl | rfl | rfl
    · refine ⟨_, rfl, ?_, ?_⟩
      · exact (save_ok_files users txns _).1
      · exact (save_ok_files users txns _).2
    · refine ⟨_, rfl, ?_, ?_⟩
      · exact (save_ok_files users txns _).1
      · exact (save_ok_files users txns _).2
    · refine ⟨_, rfl, ?_, ?_⟩
      · exact (save_ok_files users txns _).1
      · exact (save_ok_files users txns _).2

/-- C6 (witness).  Failing and succeeding saves of both variants
instantiated on a concrete disk: with the transactions write failing, the
core call errors and both destinations come back restored to their
pre-save contents, while the root-level call with a failing users write
errors leaving both destinations missing; with no fault, the new contents
land. -/
theorem c6_witness :
    fsGet dLive.files USERS_FILE = some (Content.recs [recU]) ∧
    (∃ dr, save_data [recU2] [] 1 2 Fault.writeTxnsFail dLive = Except.error dr ∧
      fsGet dr.files USERS_FILE = some (Content.recs [recU]) ∧
      fsGet dr.files TXNS_FILE = some (Content.recs [recT])) ∧
    (∃ dk, save_data [recU2] [] 1 2 Fault.ok dLive = Except.ok dk ∧
      fsGet dk.files USERS_FILE = some (Content.recs [recU2]) ∧
      fsGet dk.files TXNS_FILE = some (Content.recs [])) ∧
    (∃ dr, root_save_data [recU2] [] 3 RFault.writeUsersFail dLive = Except.error dr ∧
      fsGet dr.files USERS_FILE = none ∧ fsGet dr.files TXNS_FILE = none) ∧
    (∃ dk, root_save_data [recU2] [] 3 RFault.ok dLive = Except.ok dk ∧
      fsGet dk.files USERS_FILE = some (Content.recs [recU2]) ∧
      fsGet dk.files TXNS_FILE = some (Content.recs [])) := by
  have h := c6_save_failure dLive [recU] [recT] [recU2] [] 1 2 3 rfl rfl
    (by simp [dLive, bGet]) (by simp [dLive, bGet])
  exact ⟨rfl, h.1 Fault.writeTxnsFail (Or.inr (Or.inr (Or.inl rfl))),
    h.2.1 Fault.ok (Or.inl rfl), h.2.2.2.1, h.2.2.2.2 RFault.ok (Or.inl rfl)⟩

/-- C2 (counterexample).  The claim asserts `Decode(Encode(C)) = C` for
every Collection containing decimal, string, boolean and nested fields.
`save_data` encodes with plain `json.dump`, which has no handler for
`decimal.Decimal` and raises `TypeError`: on the concrete one-record
collection `cDecimal` (a decimal balance plus string, boolean and nested
fields) encoding produces nothing at all, so the round trip does not
return the collection. -/
theorem c2_counterexample :
    encodeValue cDecimal = none ∧
    (encodeValue cDecimal).bind decodeValue ≠ some cDecimal := by
  refine ⟨rfl, ?_⟩
  intro h
  rw [show encodeValue cDecimal = none from rfl] at h
  cases h

/-- C2 (amended).  The `json.dump` / `json.load` round trip of `save_data`
and `load_data` is the identity on collections built from the JSON-native
value types — strings, booleans, integers, and nested lists/records
thereof.  Collections containing a decimal value cannot be encoded at all
(`json.dump` raises `TypeError`), and monetary amounts reach `save_data`
only after `add_transaction` has converted them to binary floats, so the
claimed exact decimal round trip does not exist in this code. -/
theorem c2_roundtrip (v : Value) (h : jsonNative v = true) :
    (encodeValue v).bind decodeValue = some v :=
  roundtripValue v h

/-- C2 (witness).  The round trip on a concrete JSON-native one-record
collection. -/
theorem c2_witness :
    jsonNative cNative = true ∧ (encodeValue cNative).bind decodeValue = some cNative :=
  ⟨rfl, c2_roundtrip cNative rfl⟩

/-- C3 (counterexample).  The claim asserts every decimal field is emitted
as a JSON string holding its canonical decimal text.  For the concrete
transaction entered with amount `Decimal("12.5")`, `add_transaction`
stores `float(amount)` (src/core/transactions.py line 133) and
`json.dump` emits the amount field as the JSON number `12.5`
(`jNum 125 1`), not as a string: `isStr` of the emitted field is
`false`. -/
theorem c3_counterexample :
    (add_transaction_record 1 "U001" "expense" dec12half "Food" "2025-01-01" "" "Cash").bind
      (fun r => (encodeFieldList r).bind (fun fs => fs.find "amount")) =
      some (Json.jNum 125 1) ∧
    ((add_transaction_record 1 "U001" "expense" dec12half "Food" "2025-01-01" "" "Cash").bind
      (fun r => (encodeFieldList r).bind (fun fs => fs.find "amount"))).map Json.isStr =
      some false :=
  ⟨rfl, rfl⟩

/-- C3 (amended).  Every monetary amount accepted by `add_transaction` is
converted to a binary float and emitted in the JSON output as a JSON
number — never as a decimal string — while the non-decimal (string) fields
are emitted as native JSON strings. -/
theorem c3_amount_encoding (nextId : Nat) (userId ttype : String) (amount : Dec)
    (category tdate descr payMethod : String) (f : PyFloat)
    (hf : floatOfDecExact amount = some f) :
    ∃ r fs, add_transaction_record nextId userId ttype amount category tdate descr payMethod
        = some r ∧
      encodeValue (Value.vObj r) = some (Json.jObj fs) ∧
      fs.find "amount" = some (Json.jNum (f.m * 5 ^ f.k) f.k) ∧
      (fs.find "amount").map Json.isNum = some true ∧
      (fs.find "amount").map Json.isStr = some false ∧
      fs.find "category" = some (Json.jStr category) ∧
      fs.find "type" = some (Json.jStr ttype) := by
  refine ⟨FieldList.cons "transaction_id" (Value.vStr (format_txn_id nextId))
    (FieldList.cons "user_id" (Value.vStr userId)
    (FieldList.cons "type" (Value.vStr ttype)
    (FieldList.cons "amount" (Value.vFloat f)
    (FieldList.cons "category" (Value.vStr category)
    (FieldList.cons "date" (Value.vStr tdate)
    (FieldList.cons "description" (Value.vStr descr)
    (FieldList.cons "payment_method" (Value.vStr payMethod) FieldList.nil))))))),
    JsonFields.cons "transaction_id" (Json.jStr (format_txn_id nextId))
    (JsonFields.cons "user_id" (Json.jStr userId)
    (JsonFields.cons "type" (Json.jStr ttype)
    (JsonFields.cons "amount" (Json.jNum (f.m * 5 ^ f.k) f.k)
    (JsonFields.cons "category" (Json.jStr category)
    (JsonFields.cons "date" (Json.jStr tdate)
    (JsonFields.cons "description" (Json.jStr descr)
    (JsonFields.cons "payment_method" (Json.jStr payMethod) JsonFields.nil))))))),
    ?_, rfl, rfl, rfl, rfl, rfl, rfl⟩
  simp [add_transaction_record, hf]

/-- C3 (witness).  The amended statement instantiated at the concrete
amount `Decimal("12.5")`, whose float conversion is exact. -/
theorem c3_witness :
    floatOfDecExact dec12half = some ⟨25, 1⟩ ∧
    (∃ r fs, add_transaction_record 1 "U001" "expense" dec12half "Food" "2025-01-01" ""
        "Cash" = some r ∧
      encodeValue (Value.vObj r) = some (Json.jObj fs) ∧
      fs.find "amount" = some (Json.jNum ((25 : Int) * 5 ^ 1) 1) ∧
      (fs.find "amount").map Json.isNum = some true ∧
      (fs.find "amount").map Json.isStr = some false ∧
      fs.find "category" = some (Json.jStr "Food") ∧
      fs.find "type" = some (Json.jStr "expense")) :=
  ⟨rfl, c3_amount_encoding 1 "U001" "expense" dec12half "Food" "2025-01-01" "" "Cash"
    ⟨25, 1⟩ rfl⟩

/-- C9.  The typed accessors forward to the generic Store operations with
the fixed logical names and no additional logic: `load_users` and
`save_users` (transcribed from src/core/data_manager.py lines 178-220)
agree extensionally with `Load`/`Save` applied to `USERS_FILE` and the
default retention, and the transactions accessors (absent from src/ and
modelled from the spec) are the same wrappers at `TXNS_FILE`. -/
theorem c9_accessors :
    (∀ d, load_users d = Load USERS_FILE d) ∧
    (∀ d, load_transactions d = Load TXNS_FILE d) ∧
    (∀ l ts f d, save_users l ts f d = Save USERS_FILE l ts BACKUP_KEEP f d) ∧
    (∀ l ts f d, save_transactions l ts f d = Save TXNS_FILE l ts BACKUP_KEEP f d) :=
  ⟨fun _ => rfl, fun _ => rfl, fun _ _ _ _ => rfl, fun _ _ _ _ => rfl⟩

theorem rotate_backups_eq_drop (keep : Nat) :
    ∀ l : List (Nat × Content), rotate_backups keep l = l.drop (l.length - keep)
  | [] => by simp [rotate_backups]
  | f :: rest => by
    simp only [rotate_backups]
    split
    · rename_i h
      rw [rotate_backups_eq_drop keep rest]
      have hx : (f :: rest).length - keep = (rest.length - keep) + 1 := by
        simp only [List.length_cons]
        omega
      rw [show (f :: rest).drop ((f :: rest).length - keep) =
        (f :: rest).drop ((rest.length - keep) + 1) from by rw [hx]]
      rfl
    · rename_i h
      have hx : (f :: rest).length - keep = 0 := by
        simp only [List.length_cons]
        omega
      rw [hx]
      rfl

theorem ensure_file_backups (p : Path) (d : DiskState) :
    (ensure_file p d).backups = d.backups := by
  unfold ensure_file
  split <;> rfl

theorem ensure_data_files_backups (d : DiskState) :
    (ensure_data_files d).backups = d.backups := by
  unfold ensure_data_files
  rw [ensure_file_backups, ensure_file_backups]

theorem get_ensure_file (q : Path) {p : Path} {c : Content} {d : DiskState}
    (h : fsGet d.files p = some c) : fsGet (ensure_file q d).files p = some c := by
  unfold ensure_file
  cases hq : fsGet d.files q with
  | some x => exact h
  | none =>
    have hpq : p ≠ q := fun e => by rw [e, hq] at h; cases h
    rw [get_setFile_ne hpq]
    exact h

theorem get_ensure_data_files {p : Path} {c : Content} {d : DiskState}
    (h : fsGet d.files p = some c) : fsGet (ensure_data_files d).files p = some c :=
  get_ensure_file TXNS_FILE (get_ensure_file USERS_FILE h)

theorem save_backups_eq {p : Path} {ts keep : Nat} {d : DiskState} {c : Content}
    (hc : fsGet d.files p = some c) :
    bGet (make_backup_f p ts keep false false (ensure_data_files d)).backups p =
      rotate_backups keep (insertBackup ts c (bGet d.backups p)) := by
  have h2 : fsGet (ensure_data_files d).files p = some c := get_ensure_data_files hc
  have h3 : (ensure_data_files d).backups = d.backups := ensure_data_files_backups d
  simp only [make_backup_f, Bool.false_eq_true, if_false, h2]
  rw [bGet_bSet_self, h3]

theorem self_ne_append {s t : String} (h : t.data ≠ []) : s ≠ s ++ t := by
  intro e
  have h2 : s.data = s.data ++ t.data := by
    rw [← data_append]
    exact congrArg String.data e
  have h3 := congrArg List.length h2
  rw [List.length_append] at h3
  have h4 : t.data.length = 0 := by omega
  exact h (List.length_eq_zero.mp h4)

theorem p_ne_tmpPath (p : Path) : p ≠ tmpPath p :=
  self_ne_append (by decide)

theorem drop_fold_step {α : Type} (B : List α) (x : α) (R : List α) (j m M : Nat)
    (hj : j ≤ B.length + 1) (hjm : m + j = M) :
    ((B ++ [x]).drop j ++ R).drop m = (B ++ x :: R).drop M := by
  rw [← List.drop_append_of_le_length (by simp only [List.length_append]; simpa using hj),
    List.drop_drop, List.append_assoc, List.singleton_append]
  congr 1
  omega

theorem run_saves_ts (p : Path) (keep : Nat) :
    ∀ (saves : List (Nat × List Rec)) (d : DiskState) (c : Content),
      fsGet d.files p = some c →
      (∀ e ∈ bGet d.backups p, ∀ s ∈ saves, e.1 < s.1) →
      (bGet d.backups p).length ≤ keep →
      List.Pairwise (fun a b : Nat × List Rec => a.1 < b.1) saves →
      (bGet (run_saves p keep saves d).backups p).map Prod.fst =
        ((bGet d.backups p).map Prod.fst ++ saves.map Prod.fst).drop
          ((bGet d.backups p).length + saves.length - keep)
  | [], d, c, hc, hb, hlen, hp => by
    have hz : (bGet d.backups p).length +
        ([] : List (Nat × List Rec)).length - keep = 0 := by
      simp only [List.length_nil]
      omega
    simp only [run_saves, List.foldl_nil, List.map_nil, List.append_nil, hz, List.drop_zero]
  | (ts, l) :: rest, d, c, hc, hb, hlen, hp => by
    set d' := replaceFile (tmpPath p) p (setFile (tmpPath p) (Content.recs l)
      (make_backup_f p ts keep false false (ensure_data_files d))) with hd'
    have hrun : run_saves p keep ((ts, l) :: rest) d = run_saves p keep rest d' := by
      rw [hd']
      rfl
    have htsB : ∀ e ∈ bGet d.backups p, e.1 < ts :=
      fun e he => hb e he (ts, l) (List.mem_cons_self _ _)
    have hstep : bGet d'.backups p =
        rotate_backups keep ((bGet d.backups p) ++ [(ts, c)]) := by
      rw [hd', replaceFile_backups, setFile_backups, save_backups_eq hc,
        insertBackup_append htsB]
    have hlive2 : fsGet d'.files p = some (Content.recs l) := by
      rw [hd']
      exact get_replace_dst (get_setFile_self _ _ _) p
    have hb2 : ∀ e ∈ bGet d'.backups p, ∀ s ∈ rest, e.1 < s.1 := by
      intro e he s hs
      rw [hstep, rotate_backups_eq_drop] at he
      have he2 : e ∈ (bGet d.backups p) ++ [(ts, c)] := List.mem_of_mem_drop he
      rcases List.mem_append.mp he2 with h1 | h1
      · exact hb e h1 s (List.mem_cons_of_mem _ hs)
      · have he3 : e = (ts, c) := by simpa using h1
        subst he3
        exact (List.pairwise_cons.mp hp).1 s hs
    have hlen2 : (bGet d'.backups p).length ≤ keep := by
      rw [hstep, rotate_backups_eq_drop, List.length_drop]
      omega
    have hIH := run_saves_ts p keep rest d' (Content.recs l) hlive2 hb2 hlen2
      (List.pairwise_cons.mp hp).2
    rw [hrun, hIH, hstep, rotate_backups_eq_drop, List.map_drop, List.map_append]
    simp only [List.map_cons, List.map_nil, List.length_drop, List.length_append,
      List.length_map, List.length_cons, List.length_nil]
    exact drop_fold_step _ _ _ _ _ _ (by simp only [List.length_map]; omega) (by omega)

/-- C4.  After `N` successive completed `Save` calls on one logical file
with retention limit `keep` (`N > keep`), with strictly increasing
timestamps all newer than any pre-existing backup, exactly `keep` backup
entries remain and they are the `keep` most recent by embedded timestamp
(the last `keep` of the save timestamps): `_make_backup` inserts the fresh
copy and `_rotate_backups` (src/core/data_manager.py lines 46-72) drops
the oldest entries down to the limit on every save. -/
theorem c4_backup_retention (p : Path) (keep : Nat) (d0 : DiskState) (c0 : Content)
    (saves : List (Nat × List Rec))
    (hlive : fsGet d0.files p = some c0)
    (hb : ∀ e ∈ bGet d0.backups p, ∀ s ∈ saves, e.1 < s.1)
    (hp : List.Pairwise (fun a b : Nat × List Rec => a.1 < b.1) saves)
    (hN : keep < saves.length) :
    (bGet (run_saves p keep saves d0).backups p).map Prod.fst =
      (saves.map Prod.fst).drop (saves.length - keep) ∧
    (bGet (run_saves p keep saves d0).backups p).length = keep := by
  obtain ⟨⟨ts, l⟩, rest, rfl⟩ : ∃ a b, saves = a :: b := by
    cases saves with
    | nil => simp at hN
    | cons a b => exact ⟨a, b, rfl⟩
  simp only [List.length_cons] at hN
  set d' := replaceFile (tmpPath p) p (setFile (tmpPath p) (Content.recs l)
    (make_backup_f p ts keep false false (ensure_data_files d0))) with hd'
  have hrun : run_saves p keep ((ts, l) :: rest) d0 = run_saves p keep rest d' := by
    rw [hd']
    rfl
  have htsB : ∀ e ∈ bGet d0.backups p, e.1 < ts :=
    fun e he => hb e he (ts, l) (List.mem_cons_self _ _)
  have hstep : bGet d'.backups p =
      rotate_backups keep ((bGet d0.backups p) ++ [(ts, c0)]) := by
    rw [hd', replaceFile_backups, setFile_backups, save_backups_eq hlive,
      insertBackup_append htsB]
  have hlive2 : fsGet d'.files p = some (Content.recs l) := by
    rw [hd']
    exact get_replace_dst (get_setFile_self _ _ _) p
  have hb2 : ∀ e ∈ bGet d'.backups p, ∀ s ∈ rest, e.1 < s.1 := by
    intro e he s hs
    rw [hstep, rotate_backups_eq_drop] at he
    have he2 : e ∈ (bGet d0.backups p) ++ [(ts, c0)] := List.mem_of_mem_drop he
    rcases List.mem_append.mp he2 with h1 | h1
    · exact hb e h1 s (List.mem_cons_of_mem _ hs)
    · have he3 : e = (ts, c0) := by simpa using h1
      subst he3
      exact (List.pairwise_cons.mp hp).1 s hs
  have hlen2 : (bGet d'.backups p).length ≤ keep := by
    rw [hstep, rotate_backups_eq_drop, List.length_drop]
    omega
  have hIH := run_saves_ts p keep rest d' (Content.recs l) hlive2 hb2 hlen2
    (List.pairwise_cons.mp hp).2
  have h1 : (bGet (run_saves p keep ((ts, l) :: rest) d0).backups p).map Prod.fst =
      (((ts, l) :: rest).map Prod.fst).drop (((ts, l) :: rest).length - keep) := by
    rw [hrun, hIH, hstep, rotate_backups_eq_drop, List.map_drop, List.map_append]
    simp only [List.map_cons, List.map_nil, List.length_drop, List.length_append,
      List.length_map, List.length_cons, List.length_nil]
    have hgen := drop_fold_step ((bGet d0.backups p).map Prod.fst) ts
      (rest.map Prod.fst)
      ((bGet d0.backups p).length + 1 - keep)
      ((bGet d0.backups p).length + 1 - ((bGet d0.backups p).length + 1 - keep) +
        rest.length - keep)
      ((bGet d0.backups p).length + (rest.length + 1) - keep)
      (by simp only [List.length_map]; omega) (by omega)
    rw [hgen]
    have hc2 : (bGet d0.backups p).length + (rest.length + 1) - keep
        = ((bGet d0.backups p).map Prod.fst).length + (rest.length + 1 - keep) := by
      simp only [List.length_map]
      omega
    rw [hc2, List.drop_append]
  refine ⟨h1, ?_⟩
  have h2 := congrArg List.length h1
  rw [List.length_map, List.length_drop, List.length_map] at h2
  rw [h2]
  simp only [List.length_cons]
  omega

/-- C4 (witness).  Three saves with retention 2 on a concrete disk leave
exactly the two most recent backups, timestamps 2 and 3. -/
theorem c4_witness :
    fsGet dLive.files USERS_FILE = some (Content.recs [recU]) ∧
    (2 : Nat) < List.length [((1 : Nat), [recU]), (2, [recU2]), (3, [])] ∧
    ((bGet (run_saves USERS_FILE 2 [(1, [recU]), (2, [recU2]), (3, [])] dLive).backups
        USERS_FILE).map Prod.fst = [2, 3] ∧
      (bGet (run_saves USERS_FILE 2 [(1, [recU]), (2, [recU2]), (3, [])] dLive).backups
        USERS_FILE).length = 2) := by
  refine ⟨rfl, by decide, ?_⟩
  have h := c4_backup_retention USERS_FILE 2 dLive (Content.recs [recU])
    [(1, [recU]), (2, [recU2]), (3, [])] rfl
    (by intro e he; simp [dLive, bGet] at he)
    (by simp) (by decide)
  exact h

end FinanceStore
